import Mathlib

/-!
# Verification of the nostal photo-editing core

A shallow embedding, over the rationals, of the crop-geometry engine
(`useCropLogic.ts` / the solver variant of it), the render pipeline
(`engine.ts`), the tiled exporter (`TiledExporter.ts`) and the parameter
store (`useAppStore.ts`), together with theorems settling the spec claims.

JavaScript numbers are modelled as `ℚ`.  The source computes
`Math.cos(-rad)` and `Math.sin(-rad)` with `rad = smoothRotation * π/180`;
these two library calls are modelled by explicit function parameters
`co si : ℚ → ℚ`, where `co θ` stands for `Math.cos (-θ·π/180)` and `si θ`
for `Math.sin (-θ·π/180)`.  Concrete instances always evaluate them at
`θ = 0` only, where the true values are exactly `1` and `0`.
-/

namespace Nostal

/-- A 2-D point, as the `{x, y}` object literals of the source. -/
structure Pt where
  x : ℚ
  y : ℚ
deriving DecidableEq, Repr

/-- The crop UI state (`CropperUIState` in `types/Crop.ts`), restricted to
the fields the embedded operations read or write. -/
structure CropperUIState where
  scale : ℚ
  baseScale : ℚ
  smoothRotation : ℚ
  baseRotationIndex : ℤ
  flipX : ℚ
  flipY : ℚ
  panX : ℚ
  panY : ℚ
  boxWidth : ℚ
  boxHeight : ℚ
  boxOffsetX : ℚ
  boxOffsetY : ℚ
  aspectRatioVal : Option ℚ
  currentImgWidth : ℚ
  currentImgHeight : ℚ
  isAnimating : Bool
deriving DecidableEq, Repr

/-- `getBoxCorners` from `useCropState.ts`: the four crop-box corners in
workspace coordinates, in source order. -/
def getBoxCorners (st : CropperUIState) : List Pt :=
  let halfW := st.boxWidth / 2
  let halfH := st.boxHeight / 2
  [ ⟨st.boxOffsetX - halfW, st.boxOffsetY - halfH⟩,
    ⟨st.boxOffsetX + halfW, st.boxOffsetY - halfH⟩,
    ⟨st.boxOffsetX + halfW, st.boxOffsetY + halfH⟩,
    ⟨st.boxOffsetX - halfW, st.boxOffsetY + halfH⟩ ]

/-- The rotation applied to every corner in the source:
`rx = x*cos - y*sin`, `ry = x*sin + y*cos`. -/
def rotPt (c s : ℚ) (p : Pt) : Pt :=
  ⟨p.x * c - p.y * s, p.x * s + p.y * c⟩

/-- The box corners rotated into image-local space with the state's
`cos(-rad)` / `sin(-rad)` values. -/
def rotatedCorners (co si : ℚ → ℚ) (st : CropperUIState) : List Pt :=
  (getBoxCorners st).map (rotPt (co st.smoothRotation) (si st.smoothRotation))

/-- Minimum of a list of rationals; the source folds from `Infinity`, which
on the (always non-empty, four-element) corner lists equals folding `min`
from the head. -/
def qListMin : List ℚ → ℚ
  | [] => 0
  | q :: r => r.foldl min q

/-- Maximum of a list of rationals; the source folds from `-Infinity`. -/
def qListMax : List ℚ → ℚ
  | [] => 0
  | q :: r => r.foldl max q

/-- The four pan-clamp bounds `(minPanX, maxPanX, minPanY, maxPanY)`
computed inside `clampPan`. -/
def clampBounds (co si : ℚ → ℚ) (st : CropperUIState) : ℚ × ℚ × ℚ × ℚ :=
  let rc := rotatedCorners co si st
  let minRx := qListMin (rc.map Pt.x)
  let maxRx := qListMax (rc.map Pt.x)
  let minRy := qListMin (rc.map Pt.y)
  let maxRy := qListMax (rc.map Pt.y)
  let limitW := st.currentImgWidth * st.scale / 2
  let limitH := st.currentImgHeight * st.scale / 2
  (maxRx - limitW, minRx + limitW, maxRy - limitH, minRy + limitH)

/-- `clampPan` from `useCropLogic.ts`: clamp the pan per axis against the
rotated corner extrema; on an inverted interval snap to its midpoint. -/
def clampPan (co si : ℚ → ℚ) (st : CropperUIState) : Pt :=
  let b := clampBounds co si st
  let minPanX := b.1
  let maxPanX := b.2.1
  let minPanY := b.2.2.1
  let maxPanY := b.2.2.2
  let clampedPanX :=
    if minPanX > maxPanX then (minPanX + maxPanX) / 2
    else max minPanX (min maxPanX st.panX)
  let clampedPanY :=
    if minPanY > maxPanY then (minPanY + maxPanY) / 2
    else max minPanY (min maxPanY st.panY)
  ⟨clampedPanX, clampedPanY⟩

/-- One half-plane constraint `a·x + b·y ≤ d`. -/
structure Constraint where
  a : ℚ
  b : ℚ
  d : ℚ
deriving DecidableEq, Repr

/-- `getConstraintsParams`: the four rotated-image half-plane constraints,
in source order. -/
def getConstraintsParams (co si : ℚ → ℚ) (st : CropperUIState) : List Constraint :=
  let C := co st.smoothRotation
  let S := si st.smoothRotation
  let limW := st.currentImgWidth * st.scale / 2
  let limH := st.currentImgHeight * st.scale / 2
  [ ⟨C, -S, limW + st.panX⟩,
    ⟨-C, S, limW - st.panX⟩,
    ⟨S, C, limH + st.panY⟩,
    ⟨-S, -C, limH - st.panY⟩ ]

/-- The slack constant `1e-9` of `constrainPoint`. -/
def eps9 : ℚ := 1 / 1000000000

/-- One pass of `constrainPoint`'s inner loop: fold over the constraints,
pushing the point back along each violated normal and recording whether all
constraints were already satisfied. -/
def constrainPass (cs : List Constraint) (p : Pt) : Pt × Bool :=
  cs.foldl
    (fun acc c =>
      let q := acc.1
      let val := c.a * q.x + c.b * q.y
      if val > c.d + eps9 then
        (⟨q.x - c.a * (val - c.d), q.y - c.b * (val - c.d)⟩, false)
      else acc)
    (p, true)

/-- The outer `for i in 0..10` loop of `constrainPoint`, with early exit
once a pass leaves the point unchanged. -/
def constrainGo (cs : List Constraint) : ℕ → Pt → Pt
  | 0, p => p
  | n + 1, p =>
    let r := constrainPass cs p
    if r.2 then r.1 else constrainGo cs n r.1

/-- `constrainPoint` from the crop logic: project a point towards the image
half-planes, at most 10 relaxation passes. -/
def constrainPoint (co si : ℚ → ℚ) (st : CropperUIState) (x y : ℚ) : Pt :=
  constrainGo (getConstraintsParams co si st) 10 ⟨x, y⟩

/-- The corner-validity test of `calculateResize`: a corner is accepted when
`constrainPoint` moves it by at most `0.1` on each axis. -/
def cornerOK (co si : ℚ → ℚ) (st : CropperUIState) (p : Pt) : Bool :=
  let c := constrainPoint co si st p.x p.y
  !(|c.x - p.x| > 1/10 || |c.y - p.y| > 1/10)

/-- All four corners pass the validity test (the source's `valid` flag). -/
def cornersOK (co si : ℚ → ℚ) (st : CropperUIState) (ps : List Pt) : Bool :=
  ps.all (cornerOK co si st)

/-- The edge variables `newL, newR, newT, newB` of `calculateResize`. -/
structure Edges where
  l : ℚ
  r : ℚ
  t : ℚ
  b : ℚ
deriving DecidableEq, Repr

/-- The four corners of an edge rectangle, in the order `calculateResize`
builds them: `(L,T), (R,T), (R,B), (L,B)`. -/
def edgeCorners (e : Edges) : List Pt :=
  [⟨e.l, e.t⟩, ⟨e.r, e.t⟩, ⟨e.r, e.b⟩, ⟨e.l, e.b⟩]

/-- JavaScript truthiness of `currentState.aspectRatioVal` in
`keepRatio && currentState.aspectRatioVal`: `null` and `0` are falsy. -/
def truthyQ : Option ℚ → Bool
  | none => false
  | some v => v != 0

/-- `dir.includes(c)` for the one-character edge names: membership of the
character in the direction string. -/
def dirContains (dir : String) (ch : Char) : Bool :=
  dir.data.contains ch

/-- The candidate edges of `calculateResize`: move the edges named in
`dir`, normalize crossed edges, then re-derive the non-driving dimension
when the aspect ratio is locked. -/
def resizeCandidate (dx dy : ℚ) (dir : String)
    (startW startH startOffX startOffY : ℚ) (keepR : Bool)
    (st : CropperUIState) : Edges :=
  let halfW := startW / 2
  let halfH := startH / 2
  let l0 := startOffX - halfW
  let r0 := startOffX + halfW
  let t0 := startOffY - halfH
  let b0 := startOffY + halfH
  let l1 := if dirContains dir 'l' then l0 + dx else l0
  let r1 := if dirContains dir 'r' then r0 + dx else r0
  let t1 := if dirContains dir 't' then t0 + dy else t0
  let b1 := if dirContains dir 'b' then b0 + dy else b0
  let l2 := if l1 > r1 then r1 else l1
  let r2 := if l1 > r1 then l1 else r1
  let t2 := if t1 > b1 then b1 else t1
  let b2 := if t1 > b1 then t1 else b1
  if keepR && truthyQ st.aspectRatioVal then
    let rr := st.aspectRatioVal.getD 0
    if dir = "l" || dir = "r" then
      let targetH := (r2 - l2) / rr
      let hDiff := targetH - (b2 - t2)
      ⟨l2, r2, t2 - hDiff / 2, b2 + hDiff / 2⟩
    else if dir = "t" || dir = "b" then
      let targetW := (b2 - t2) * rr
      let wDiff := targetW - (r2 - l2)
      ⟨l2 - wDiff / 2, r2 + wDiff / 2, t2, b2⟩
    else
      let currentW := r2 - l2
      let currentH := b2 - t2
      if currentW / currentH > rr then
        let targetH := currentW / rr
        if dirContains dir 't' then ⟨l2, r2, b2 - targetH, b2⟩
        else ⟨l2, r2, t2, t2 + targetH⟩
      else
        let targetW := currentH * rr
        if dirContains dir 'l' then ⟨r2 - targetW, r2, t2, b2⟩
        else ⟨l2, l2 + targetW, t2, b2⟩
  else ⟨l2, r2, t2, b2⟩

/-- Anchor-point selection of the containment solve: the opposite corner
for corner drags, the box center for anything else. -/
def resizeAnchor (dir : String) (e : Edges) : Pt :=
  if dir = "tl" then ⟨e.r, e.b⟩
  else if dir = "br" then ⟨e.l, e.t⟩
  else if dir = "tr" then ⟨e.l, e.b⟩
  else if dir = "bl" then ⟨e.r, e.t⟩
  else ⟨(e.l + e.r) / 2, (e.t + e.b) / 2⟩

/-- Shrink the candidate edges towards the anchor by factor `t`. -/
def shrunkEdges (an : Pt) (e : Edges) (t : ℚ) : Edges :=
  ⟨an.x + (e.l - an.x) * t, an.x + (e.r - an.x) * t,
   an.y + (e.t - an.y) * t, an.y + (e.b - an.y) * t⟩

/-- The per-factor validity test of the binary search: all four corners of
the candidate shrunk by `t` pass `cornerOK`. -/
def shrinkFactorOK (co si : ℚ → ℚ) (st : CropperUIState) (an : Pt)
    (e : Edges) (t : ℚ) : Bool :=
  cornersOK co si st (edgeCorners (shrunkEdges an e t))

/-- The bounded binary search of `calculateResize` over a shrink factor:
`low`, `high`, `bestScale` evolve exactly as in the source loop. -/
def resizeSearch (ok : ℚ → Bool) : ℕ → ℚ → ℚ → ℚ → ℚ
  | 0, _, _, best => best
  | n + 1, low, high, best =>
    let mid := (low + high) / 2
    if ok mid then resizeSearch ok n mid high mid
    else resizeSearch ok n low mid best

/-- The factors the binary search tests, in order. -/
def resizeSearchTrace (ok : ℚ → Bool) : ℕ → ℚ → ℚ → List ℚ
  | 0, _, _ => []
  | n + 1, low, high =>
    let mid := (low + high) / 2
    mid :: (if ok mid then resizeSearchTrace ok n mid high
            else resizeSearchTrace ok n low mid)

/-- The `50`-pixel floor applied to the final edges. -/
def floor50 (e : Edges) : Edges :=
  let e1 := if e.r - e.l < 50 then { e with r := e.l + 50 } else e
  if e1.b - e1.t < 50 then { e1 with b := e1.t + 50 } else e1

/-- The `{w, h, x, y}` result object of `calculateResize`. -/
structure ResizeResult where
  w : ℚ
  h : ℚ
  x : ℚ
  y : ℚ
deriving DecidableEq, Repr

/-- `calculateResize` from the solver variant of `useCropLogic.ts`. -/
def calculateResize (co si : ℚ → ℚ) (dx dy : ℚ) (dir : String)
    (startW startH startOffX startOffY : ℚ) (keepR : Bool)
    (st : CropperUIState) : ResizeResult :=
  let cand := resizeCandidate dx dy dir startW startH startOffX startOffY keepR st
  let solved :=
    if cornersOK co si st (edgeCorners cand) then cand
    else
      let an := resizeAnchor dir cand
      let best := resizeSearch (shrinkFactorOK co si st an cand) 10 0 1 0
      shrunkEdges an cand best
  let fin := floor50 solved
  ⟨fin.r - fin.l, fin.b - fin.t, (fin.l + fin.r) / 2, (fin.t + fin.b) / 2⟩

/-- The per-corner `s_req_x` term of `getMinScaleForBox`:
`S ≥ |rx| / (halfImgW + sign(rx)·relPanX)` when the denominator is
positive, `0` otherwise. -/
def minScaleReqX (co si : ℚ → ℚ) (st : CropperUIState) (relPanX : ℚ) (p : Pt) : ℚ :=
  let rx := p.x * co st.smoothRotation - p.y * si st.smoothRotation
  let denomX := st.currentImgWidth / 2 + (if rx ≥ 0 then relPanX else -relPanX)
  if denomX > 0 then |rx| / denomX else 0

/-- The per-corner `s_req_y` term of `getMinScaleForBox`. -/
def minScaleReqY (co si : ℚ → ℚ) (st : CropperUIState) (relPanY : ℚ) (p : Pt) : ℚ :=
  let ry := p.x * si st.smoothRotation + p.y * co st.smoothRotation
  let denomY := st.currentImgHeight / 2 + (if ry ≥ 0 then relPanY else -relPanY)
  if denomY > 0 then |ry| / denomY else 0

/-- The corner list of `getMinScaleForBox`: a `boxW × boxH` box centered
at the local origin. -/
def minScaleCorners (boxW boxH : ℚ) : List Pt :=
  [⟨-boxW / 2, -boxH / 2⟩, ⟨boxW / 2, -boxH / 2⟩,
   ⟨boxW / 2, boxH / 2⟩, ⟨-boxW / 2, boxH / 2⟩]

/-- `getMinScaleForBox`: the minimum scale at which a `boxW × boxH` box at
relative pan `(relPanX, relPanY)` is fully covered, solved one-sidedly per
corner and axis (`minScale = max(minScale, s_req_x, s_req_y)` over the four
corners). -/
def getMinScaleForBox (co si : ℚ → ℚ) (boxW boxH relPanX relPanY : ℚ)
    (st : CropperUIState) : ℚ :=
  (minScaleCorners boxW boxH).foldl
    (fun m p =>
      max (max m (minScaleReqX co si st relPanX p)) (minScaleReqY co si st relPanY p))
    0

/-- The animation end values of `animateReset` (its `end` record). -/
structure ResetEnd where
  w : ℚ
  h : ℚ
  s : ℚ
  px : ℚ
  py : ℚ
deriving DecidableEq, Repr

/-- `targetAspect` of `animateReset`: the locked ratio when set, the
current box aspect otherwise. -/
def targetAspectOf (st : CropperUIState) : ℚ :=
  match st.aspectRatioVal with
  | some v => v
  | none => st.boxWidth / st.boxHeight

/-- `targetBoxW` of `animateReset` (canonical 550px viewport box). -/
def targetBoxWOf (st : CropperUIState) : ℚ :=
  if targetAspectOf st > 1 then (550 : ℚ) else 550 * targetAspectOf st

/-- `targetBoxH` of `animateReset`. -/
def targetBoxHOf (st : CropperUIState) : ℚ :=
  if targetAspectOf st > 1 then 550 / targetAspectOf st else (550 : ℚ)

/-- The box offset projected into image-local space (`boxLocalX`). -/
def boxLocalXOf (co si : ℚ → ℚ) (st : CropperUIState) : ℚ :=
  st.boxOffsetX * co st.smoothRotation - st.boxOffsetY * si st.smoothRotation

/-- The box offset projected into image-local space (`boxLocalY`). -/
def boxLocalYOf (co si : ℚ → ℚ) (st : CropperUIState) : ℚ :=
  st.boxOffsetX * si st.smoothRotation + st.boxOffsetY * co st.smoothRotation

/-- `relPanX`: the pan relative to the box center, in unscaled pixels. -/
def relPanXOf (co si : ℚ → ℚ) (st : CropperUIState) : ℚ :=
  (st.panX - boxLocalXOf co si st) / st.scale

/-- `relPanY`. -/
def relPanYOf (co si : ℚ → ℚ) (st : CropperUIState) : ℚ :=
  (st.panY - boxLocalYOf co si st) / st.scale

/-- The target box, scale and pan computed at the top of `animateReset`:
the final scale is `max(baseTargetScale, minRequiredScale)`. -/
def animateResetEnd (co si : ℚ → ℚ) (st : CropperUIState) : ResetEnd :=
  let minRequiredScale := getMinScaleForBox co si (targetBoxWOf st) (targetBoxHOf st)
    (relPanXOf co si st) (relPanYOf co si st) st
  let baseTargetScale := st.scale * (targetBoxWOf st / st.boxWidth)
  let targetScale := max baseTargetScale minRequiredScale
  ⟨targetBoxWOf st, targetBoxHOf st, targetScale,
   relPanXOf co si st * targetScale, relPanYOf co si st * targetScale⟩

/-- `animateReset`, modelled by its end-of-animation state: the final
`updateState` call of the `p ≥ 1` branch.  A state already animating is
left unchanged (the early return). -/
def animateReset (co si : ℚ → ℚ) (st : CropperUIState) : CropperUIState :=
  if st.isAnimating then st
  else
    let e := animateResetEnd co si st
    { st with boxWidth := e.w, boxHeight := e.h, boxOffsetX := 0, boxOffsetY := 0,
              scale := e.s, panX := e.px, panY := e.py,
              baseScale := e.s, isAnimating := false }

/-- The `newIndex` computation of `handleRotateBase`: add the direction,
then wrap below 0 to 3 and above 3 to 0. -/
def nextRotationIndex (direction i : ℤ) : ℤ :=
  let i0 := i + direction
  let i1 := if i0 < 0 then 3 else i0
  if i1 > 3 then 0 else i1

/-- The pure state change of `handleRotateBase` in `ImageCropper.tsx`,
before the final `animateReset` call. -/
def rotateBaseState (direction : ℤ) (st : CropperUIState) : CropperUIState :=
  let newIndex := nextRotationIndex direction st.baseRotationIndex
  let off :=
    if direction = 1 then (-st.boxOffsetY, st.boxOffsetX, -st.panY, st.panX)
    else (st.boxOffsetY, -st.boxOffsetX, st.panY, -st.panX)
  { st with baseRotationIndex := newIndex,
            currentImgWidth := st.currentImgHeight,
            currentImgHeight := st.currentImgWidth,
            boxWidth := st.boxHeight, boxHeight := st.boxWidth,
            boxOffsetX := off.1, boxOffsetY := off.2.1,
            panX := off.2.2.1, panY := off.2.2.2,
            aspectRatioVal := st.aspectRatioVal.map (fun v => 1 / v) }

/-- `handleRotateBase`: rotate the quadrant state, then reset to fit. -/
def handleRotateBase (co si : ℚ → ℚ) (direction : ℤ) (st : CropperUIState) :
    CropperUIState :=
  animateReset co si (rotateBaseState direction st)

/-- The two flip axes of `handleFlipBase`. -/
inductive FlipAxis where
  | h
  | v
deriving DecidableEq, Repr

/-- `handleFlipBase`: negate the flip sign and the pan/offset component of
the chosen axis. -/
def handleFlipBase (ax : FlipAxis) (st : CropperUIState) : CropperUIState :=
  match ax with
  | .h => { st with flipX := st.flipX * -1, panX := st.panX * -1,
                    boxOffsetX := st.boxOffsetX * -1 }
  | .v => { st with flipY := st.flipY * -1, panY := st.panY * -1,
                    boxOffsetY := st.boxOffsetY * -1 }

/-- The intermediate state of the image-drag branch of `handleMouseMove`:
the screen delta rotated into image-local space and added to the pan. -/
def panApply (co si : ℚ → ℚ) (dx dy : ℚ) (st : CropperUIState) : CropperUIState :=
  let c := co st.smoothRotation
  let s := si st.smoothRotation
  { st with panX := st.panX + (dx * c - dy * s),
            panY := st.panY + (dx * s + dy * c) }

/-- The pan operation: apply the rotated delta, then `clampPan`. -/
def panOp (co si : ℚ → ℚ) (dx dy : ℚ) (st : CropperUIState) : CropperUIState :=
  let st2 := panApply co si dx dy st
  let p := clampPan co si st2
  { st2 with panX := p.x, panY := p.y }

/-- The resize operation of `useCropInteraction`: `calculateResize` from
the gesture-start box (captured as the current box) with the accumulated
deltas, written into the box geometry. -/
def resizeOp (co si : ℚ → ℚ) (dir : String) (dx dy : ℚ)
    (st : CropperUIState) : CropperUIState :=
  let res := calculateResize co si dx dy dir st.boxWidth st.boxHeight
    st.boxOffsetX st.boxOffsetY st.aspectRatioVal.isSome st
  { st with boxWidth := res.w, boxHeight := res.h,
            boxOffsetX := res.x, boxOffsetY := res.y }

/-- The initial crop state built by `useCropState` for a fresh image of
natural size `W × H`. -/
def cropInit (W H : ℚ) : CropperUIState :=
  let imgAspect := W / H
  let boxW := if imgAspect > 1 then (550 : ℚ) else 550 * imgAspect
  let boxH := if imgAspect > 1 then 550 / imgAspect else (550 : ℚ)
  let initialScale := boxW / W
  { scale := initialScale, baseScale := initialScale, smoothRotation := 0,
    baseRotationIndex := 0, flipX := 1, flipY := 1, panX := 0, panY := 0,
    boxWidth := boxW, boxHeight := boxH, boxOffsetX := 0, boxOffsetY := 0,
    aspectRatioVal := none, currentImgWidth := W, currentImgHeight := H,
    isAnimating := false }

/-- States reachable from `s0` by the four crop operations of claim C1:
pan (with `clampPan`), resize (`calculateResize`), `rotateBase` and
`flipBase`. -/
inductive Reach (co si : ℚ → ℚ) (s0 : CropperUIState) : CropperUIState → Prop where
  | init : Reach co si s0 s0
  | pan (dx dy : ℚ) {s : CropperUIState} (h : Reach co si s0 s) :
      Reach co si s0 (panOp co si dx dy s)
  | resize (dir : String) (dx dy : ℚ) {s : CropperUIState} (h : Reach co si s0 s) :
      Reach co si s0 (resizeOp co si dir dx dy s)
  | rotate (d : ℤ) {s : CropperUIState} (h : Reach co si s0 s) :
      Reach co si s0 (handleRotateBase co si d s)
  | flip (ax : FlipAxis) {s : CropperUIState} (h : Reach co si s0 s) :
      Reach co si s0 (handleFlipBase ax s)

/-- The crop coverage property of claim C1 at tolerance `tol`: every box
corner rotated into image-local space lies within the scaled image
half-extents around the pan. -/
def coverageWithin (tol : ℚ) (co si : ℚ → ℚ) (st : CropperUIState) : Prop :=
  ∀ p ∈ rotatedCorners co si st,
    |p.x - st.panX| ≤ st.currentImgWidth / 2 * st.scale + tol ∧
    |p.y - st.panY| ≤ st.currentImgHeight / 2 * st.scale + tol

instance (tol : ℚ) (co si : ℚ → ℚ) (st : CropperUIState) :
    Decidable (coverageWithin tol co si st) := by
  unfold coverageWithin; infer_instance

/-! ## Render pipeline (`engine.ts`), plugins and store -/

/-- A committed or merged parameter dictionary (`Record<string, number>`),
modelled extensionally as a partial map. -/
def PMap : Type := String → Option ℚ

/-- One declared parameter of a plugin schema (key and default value; the
other schema fields are not read by the embedded code). -/
structure ParamDef where
  key : String
  default : ℚ

/-- A plugin definition, restricted to the fields the pipeline and the
exporter read: the ordered parameter schema and the optional
spatial-influence function `getEffectRadius(params, scale)`. -/
structure PluginDefinition where
  parameters : List ParamDef
  getEffectRadius : Option (PMap → ℚ → ℚ)

/-- `LayerInstance` from `types/Plugin.d.ts`. -/
structure LayerInstance where
  id : String
  pluginId : String
  visible : Bool
  params : PMap

/-- The plugin registry: `getPlugin(id)` yields the plugin or `undefined`. -/
def Registry : Type := String → Option PluginDefinition

/-- The transient overlay `transientParams : Record<layerId, Record<key, number>>`. -/
def TransientMap : Type := String → Option PMap

/-- The empty dictionary. -/
def emptyPMap : PMap := fun _ => none

/-- `{...layer.params, ...(transientParams[layer.id] || {})}`: per key, the
transient value if present, else the committed value. -/
def mergedParams (l : LayerInstance) (transient : TransientMap) : PMap :=
  fun k =>
    match ((transient l.id).getD emptyPMap) k with
    | some v => some v
    | none => l.params k

/-- `currentParams[p.key] ?? p.default`. -/
def resolveParam (params : PMap) (p : ParamDef) : ℚ :=
  (params p.key).getD p.default

/-- A shader-uniform value: `null` (for `tDiffuse`) or a number. -/
inductive UVal where
  | null
  | num (v : ℚ)
deriving DecidableEq, Repr

/-- The uniform dictionary of one pass's material. -/
def Uniforms : Type := String → Option UVal

/-- Write one uniform entry (JavaScript object assignment / spread: the
last write to a key wins). -/
def setU (u : Uniforms) (k : String) (v : UVal) : Uniforms :=
  fun q => if q = k then some v else u q

/-- `createUniforms(plugin, params)` spread over `{tDiffuse: {value: null}}`:
the uniforms of a freshly built pass material. -/
def materialUniforms (pl : PluginDefinition) (params : PMap) : Uniforms :=
  pl.parameters.foldl
    (fun u p => setU u p.key (UVal.num (resolveParam params p)))
    (setU (fun _ => none) "tDiffuse" UVal.null)

/-- The layer-pass loop of `Engine.rebuildPipeline`: one `(layer.id, uniforms)`
pass per visible layer whose plugin is registered, in layer order. -/
def rebuildPassList (layers : List LayerInstance) (reg : Registry)
    (transient : TransientMap) : List (String × Uniforms) :=
  layers.filterMap
    (fun l =>
      if !l.visible then none
      else (reg l.pluginId).map
        (fun pl => (l.id, materialUniforms pl (mergedParams l transient))))

/-- The pass-by-id dictionary (`passMap`). -/
def PassMap : Type := String → Option Uniforms

/-- Write one pass entry. -/
def setPass (pm : PassMap) (k : String) (u : Uniforms) : PassMap :=
  fun q => if q = k then some u else pm q

/-- The `passMap` as `rebuildPipeline` fills it. -/
def rebuildPassMap (layers : List LayerInstance) (reg : Registry)
    (transient : TransientMap) : PassMap :=
  (rebuildPassList layers reg transient).foldl
    (fun pm e => setPass pm e.1 e.2) (fun _ => none)

/-- The per-pass body of `Engine.updatePassParameters`: for every declared
parameter whose uniform entry exists, overwrite its value with the
resolution of the merged parameters. -/
def patchPlugin (pl : PluginDefinition) (params : PMap) (u : Uniforms) : Uniforms :=
  pl.parameters.foldl
    (fun u p =>
      if (u p.key).isSome then setU u p.key (UVal.num (resolveParam params p))
      else u)
    u

/-- The per-layer body of `Engine.updatePassParameters`:
`if (!pass || !layer.visible) return; if (!plugin) return; ...`. -/
def patchStep (reg : Registry) (transient : TransientMap)
    (pm : PassMap) (l : LayerInstance) : PassMap :=
  match pm l.id with
  | none => pm
  | some uni =>
    if !l.visible then pm
    else
      match reg l.pluginId with
      | none => pm
      | some pl => setPass pm l.id (patchPlugin pl (mergedParams l transient) uni)

/-- `Engine.updatePassParameters`: patch every visible layer whose pass
exists and whose plugin is registered; skip the rest. -/
def updatePassParameters (layers : List LayerInstance) (reg : Registry)
    (transient : TransientMap) (pm : PassMap) : PassMap :=
  layers.foldl (patchStep reg transient) pm

/-- The fingerprint entry of one layer in `setupSubscribers` and
`rebuildPipeline`: the template string `id-visible`. -/
def layerKey (l : LayerInstance) : String :=
  l.id ++ "-" ++ (if l.visible then "true" else "false")

/-- `layers.map(l => l.id-l.visible)`: the structure fingerprint. -/
def layerStructure (layers : List LayerInstance) : List String :=
  layers.map layerKey

/-- `Engine.arraysEqual`: length check plus element-wise comparison. -/
def arraysEqual : List String → List String → Bool
  | [], [] => true
  | a :: as, b :: bs => a == b && arraysEqual as bs
  | _, _ => false

/-- What the layers subscriber does on a layers change. -/
inductive EngineAction where
  | rebuild
  | patch
deriving DecidableEq, Repr

/-- The branch taken by the layers subscriber: full rebuild when the
fingerprints differ, in-place uniform patch otherwise. -/
def layersChangedAction (prev : List String) (layers : List LayerInstance) :
    EngineAction :=
  if arraysEqual prev (layerStructure layers) then .patch else .rebuild

/-! ## Tiled exporter (`TiledExporter.ts`) -/

/-- `baseScale = Math.max(fullWidth, fullHeight) / 1080`. -/
def exportBaseScale (w h : ℚ) : ℚ := max w h / 1080

/-- The body of the padding `forEach` of `TiledExporter.export`:
`if (plugin && plugin.getEffectRadius) { ... if (radius > maxPadding) ... }`. -/
def paddingStep (reg : Registry) (baseScale : ℚ) (m : ℚ) (l : LayerInstance) : ℚ :=
  match reg l.pluginId with
  | none => m
  | some pl =>
    match pl.getEffectRadius with
    | none => m
    | some f =>
      let radius := f l.params baseScale
      if radius > m then radius else m

/-- The padding fold of `TiledExporter.export`, before `Math.ceil`: over
every layer (there is no visibility check here), take the radius of its
registered plugin's `getEffectRadius`, keeping the running maximum. -/
def exportMaxPaddingQ (layers : List LayerInstance) (reg : Registry)
    (baseScale : ℚ) : ℚ :=
  layers.foldl (paddingStep reg baseScale) 0

/-- `maxPadding = Math.ceil(maxPadding)`. -/
def exportMaxPadding (layers : List LayerInstance) (reg : Registry)
    (w h : ℚ) : ℤ :=
  ⌈exportMaxPaddingQ layers reg (exportBaseScale w h)⌉

/-- `cols = Math.ceil(fullWidth / tileSize)` with `tileSize = 2048`. -/
def exportCols (w : ℚ) : ℤ := ⌈w / 2048⌉

/-- `rows = Math.ceil(fullHeight / tileSize)`. -/
def exportRows (h : ℚ) : ℤ := ⌈h / 2048⌉

/-- `maxRenderSize = tileSize + maxPadding * 2`, the square GL buffer edge. -/
def maxRenderSize (layers : List LayerInstance) (reg : Registry)
    (w h : ℚ) : ℤ :=
  2048 + exportMaxPadding layers reg w h * 2

/-- The exporter's effect-pass loop: one pass per visible layer with a
registered plugin, uniforms resolved from the committed params only. -/
def exporterPasses (layers : List LayerInstance) (reg : Registry) :
    List Uniforms :=
  layers.filterMap
    (fun l =>
      if !l.visible then none
      else (reg l.pluginId).map (fun pl => materialUniforms pl l.params))

/-- The effect radii the spec's padding formula ranges over, restricted to
visible layers (claim C3's reading), in layer order. -/
def visibleRadii (layers : List LayerInstance) (reg : Registry)
    (baseScale : ℚ) : List ℚ :=
  (layers.filter (fun l => l.visible)).filterMap
    (fun l => (reg l.pluginId).bind
      (fun pl => pl.getEffectRadius.map (fun f => f l.params baseScale)))

/-- The same radii over all layers, visible or not (what the code does). -/
def allRadii (layers : List LayerInstance) (reg : Registry)
    (baseScale : ℚ) : List ℚ :=
  layers.filterMap
    (fun l => (reg l.pluginId).bind
      (fun pl => pl.getEffectRadius.map (fun f => f l.params baseScale)))

/-- The spec's padding formula restricted to visible layers:
`ceil(max over visible layers of radius)`, with an empty maximum of `0`. -/
def specMaxPaddingVisible (layers : List LayerInstance) (reg : Registry)
    (w h : ℚ) : ℤ :=
  ⌈(visibleRadii layers reg (exportBaseScale w h)).foldr max 0⌉

/-! ## Parameter store (`useAppStore.ts`) -/

/-- The slice of the app store the parameter actions touch. -/
structure AppState where
  layers : List LayerInstance
  transientParams : TransientMap

/-- `commitParam(layerId, key, value)`: destructure the whole transient
entry for `layerId` away, and write `value` under `key` into that layer's
committed params. -/
def commitParam (s : AppState) (layerId key : String) (value : ℚ) : AppState :=
  { transientParams := fun id => if id = layerId then none else s.transientParams id,
    layers := s.layers.map
      (fun l =>
        if l.id = layerId then
          { l with params := fun q => if q = key then some value else l.params q }
        else l) }

/-! ## Theorems -/

/-- C10.  `commitParam(layerId, key, value)` removes the whole transient
entry for `layerId` (every in-progress key of that layer), leaves every
other layer's transient entry unchanged, leaves every layer with a
different id untouched, and rewrites each layer with that id by writing
`value` under `key` into its committed params while preserving its other
params and its id, pluginId and visibility. -/
theorem commitParam_semantics (s : AppState) (layerId key : String) (value : ℚ) :
    (commitParam s layerId key value).transientParams layerId = none ∧
    (∀ id, id ≠ layerId →
      (commitParam s layerId key value).transientParams id = s.transientParams id) ∧
    (∀ (i : ℕ) (l : LayerInstance), s.layers[i]? = some l → l.id ≠ layerId →
      (commitParam s layerId key value).layers[i]? = some l) ∧
    (∀ (i : ℕ) (l : LayerInstance), s.layers[i]? = some l → l.id = layerId →
      ∃ l2, (commitParam s layerId key value).layers[i]? = some l2 ∧
        l2.id = l.id ∧ l2.pluginId = l.pluginId ∧ l2.visible = l.visible ∧
        l2.params key = some value ∧
        ∀ q, q ≠ key → l2.params q = l.params q) := by
  refine ⟨by simp [commitParam], fun id hid => by simp [commitParam, hid], ?_, ?_⟩
  · intro i l hi hne
    simp [commitParam, List.getElem?_map, hi, hne]
  · intro i l hi heq
    refine ⟨{ l with params := fun q => if q = key then some value else l.params q },
      ?_, rfl, rfl, rfl, by simp, fun q hq => by simp [hq]⟩
    simp [commitParam, List.getElem?_map, hi, heq]

/-- A concrete two-layer store used to witness C10. -/
def storeEx : AppState :=
  { layers :=
      [ { id := "L1", pluginId := "contrast", visible := true,
          params := fun q => if q = "k" then some 1 else if q = "j" then some 2 else none },
        { id := "L2", pluginId := "contrast", visible := false,
          params := fun q => if q = "k" then some 7 else none } ],
    transientParams := fun id =>
      if id = "L1" then some (fun q => if q = "k" then some 3 else if q = "j" then some 4 else none)
      else if id = "L2" then some (fun q => if q = "k" then some 9 else none)
      else none }

/-- Witness for C10 at a concrete store: the committed key lands in layer
`L1`, its sibling key survives, layer `L2` and its transient entry are
untouched, and `L1`'s transient entry is gone wholesale. -/
theorem commitParam_semantics_witness :
    (commitParam storeEx "L1" "k" 5).transientParams "L1" = none ∧
    (commitParam storeEx "L1" "k" 5).transientParams "L2" = storeEx.transientParams "L2" ∧
    (commitParam storeEx "L1" "k" 5).layers[1]? = some (storeEx.layers.get ⟨1, by decide⟩) ∧
    ∃ l2, (commitParam storeEx "L1" "k" 5).layers[0]? = some l2 ∧
      l2.params "k" = some 5 ∧ l2.params "j" = some 2 := by
  have h := commitParam_semantics storeEx "L1" "k" 5
  refine ⟨h.1, h.2.1 "L2" (by decide), ?_, ?_⟩
  · exact h.2.2.1 1 (storeEx.layers.get ⟨1, by decide⟩) rfl (by decide)
  · obtain ⟨l2, hl2, _, _, _, hk, hq⟩ :=
      h.2.2.2 0 (storeEx.layers.get ⟨0, by decide⟩) rfl rfl
    exact ⟨l2, hl2, hk, by rw [hq "j" (by decide)]; rfl⟩

/-- The padding update `if (radius > maxPadding) maxPadding = radius` is a
binary maximum. -/
lemma ifGt_eq_max (m r : ℚ) : (if r > m then r else m) = max m r := by
  rcases le_or_lt r m with h | h
  · simp [not_lt.2 h, max_eq_left h]
  · simp [h, max_eq_right h.le]

/-- Folding the padding step over the layers from `m` is folding `max`
over the radii of the layers with a registered, radius-bearing plugin. -/
lemma paddingStep_foldl (reg : Registry) (bs : ℚ) :
    ∀ (layers : List LayerInstance) (m : ℚ),
      layers.foldl (paddingStep reg bs) m = (allRadii layers reg bs).foldl max m := by
  intro layers
  induction layers with
  | nil => intro m; simp [allRadii]
  | cons l ls ih =>
    intro m
    simp only [List.foldl_cons, allRadii, List.filterMap_cons]
    cases hr : reg l.pluginId with
    | none => simpa [allRadii, paddingStep, hr] using ih m
    | some pl =>
      cases hf : pl.getEffectRadius with
      | none => simpa [allRadii, paddingStep, hr, hf] using ih m
      | some f =>
        simpa [allRadii, paddingStep, hr, hf, ifGt_eq_max] using
          ih (max m (f l.params bs))

/-- A `max`-foldr from `0` is nonnegative. -/
lemma foldr_max_nonneg (l : List ℚ) : 0 ≤ l.foldr max 0 := by
  induction l with
  | nil => simp
  | cons x xs ih => exact le_trans ih (by simp)

/-- Folding `max` from a nonnegative seed equals `max` of the seed with the
`foldr` maximum from `0`. -/
lemma foldl_max_eq (l : List ℚ) : ∀ a : ℚ, 0 ≤ a →
    l.foldl max a = max a (l.foldr max 0) := by
  induction l with
  | nil => intro a ha; simp [max_eq_left ha]
  | cons x xs ih =>
    intro a ha
    rw [List.foldl_cons, ih (max a x) (le_trans ha (le_max_left a x)),
        List.foldr_cons, max_assoc]

/-- C3 (amended).  The exporter's padding is
`ceil(max over ALL layers - visible or not - whose plugin is registered and
declares a radius function, of radius(layer.params, baseScale))`, with
`baseScale = max(w, h) / 1080`. -/
theorem exportMaxPadding_eq_ceil_allRadii
    (layers : List LayerInstance) (reg : Registry) (w h : ℚ) :
    exportMaxPadding layers reg w h =
      ⌈(allRadii layers reg (max w h / 1080)).foldr max 0⌉ := by
  unfold exportMaxPadding exportMaxPaddingQ exportBaseScale
  rw [paddingStep_foldl, foldl_max_eq _ 0 le_rfl,
      max_eq_right (foldr_max_nonneg _)]

/-- The concrete radius function of the export scenario:
`radius(params, scale) = 20 * scale`. -/
def radius20 : PMap → ℚ → ℚ := fun _ s => 20 * s

/-- The one-plugin registry of the export scenario. -/
def regBlur : Registry :=
  fun id => if id = "blur" then
    some { parameters := [], getEffectRadius := some radius20 } else none

/-- A visible layer using that plugin. -/
def layerBlurVisible : LayerInstance :=
  { id := "A", pluginId := "blur", visible := true, params := emptyPMap }

/-- The same layer with its visible flag off. -/
def layerBlurHidden : LayerInstance :=
  { id := "A", pluginId := "blur", visible := false, params := emptyPMap }

/-- C3 (counterexample).  For a 4000×3000 image and a single non-visible
layer whose plugin declares `radius = 20·scale`, the code's padding is `75`
while the claim's visible-only formula gives `0`: the claim's equation
fails, because the padding loop never consults the visible flag. -/
theorem exportMaxPadding_counterexample :
    exportMaxPadding [layerBlurHidden] regBlur 4000 3000 = 75 ∧
    specMaxPaddingVisible [layerBlurHidden] regBlur 4000 3000 = 0 ∧
    exportMaxPadding [layerBlurHidden] regBlur 4000 3000 ≠
      specMaxPaddingVisible [layerBlurHidden] regBlur 4000 3000 := by
  refine ⟨?_, ?_, ?_⟩ <;> with_unfolding_all decide

/-- C8.  The concrete export scenario: image 4000×3000, one visible layer
with `radius(params, scale) = 20·scale` gives `baseScale = 100/27 ≈ 3.7037`,
`maxPadding = ceil(2000/27) = 75`, a 2×2 tile grid at tile size 2048, and a
per-tile GL buffer of `2048 + 2·75 = 2198` pixels square. -/
theorem exportScenario4000x3000 :
    exportBaseScale 4000 3000 = 100 / 27 ∧
    exportMaxPadding [layerBlurVisible] regBlur 4000 3000 = 75 ∧
    exportCols 4000 = 2 ∧
    exportRows 3000 = 2 ∧
    maxRenderSize [layerBlurVisible] regBlur 4000 3000 = 2198 := by
  refine ⟨?_, ?_, ?_, ?_, ?_⟩ <;> with_unfolding_all decide

/-- `arraysEqual` is list equality. -/
lemma arraysEqual_iff : ∀ a b : List String, arraysEqual a b = true ↔ a = b := by
  intro a
  induction a with
  | nil => intro b; cases b <;> simp [arraysEqual]
  | cons x xs ih =>
    intro b
    cases b with
    | nil => simp [arraysEqual]
    | cons y ys => simp [arraysEqual, ih]

/-- The fingerprint string `id-visible` determines both the id and the
visible flag: the suffixes `-true` / `-false` cannot collide with any id
prefix. -/
lemma layerKey_inj (l1 l2 : LayerInstance) (h : layerKey l1 = layerKey l2) :
    l1.id = l2.id ∧ l1.visible = l2.visible := by
  have hd := congrArg String.data h
  unfold layerKey at hd
  have e : ∀ a b : String, (a ++ b).data = a.data ++ b.data := fun _ _ => rfl
  have hdash : ("-" : String).data = ['-'] := rfl
  have htrue : ("true" : String).data = ['t', 'r', 'u', 'e'] := rfl
  have hfalse : ("false" : String).data = ['f', 'a', 'l', 's', 'e'] := rfl
  cases hv1 : l1.visible <;> cases hv2 : l2.visible <;>
    simp only [hv1, hv2, if_true, if_false, e, hdash, htrue, hfalse] at hd
  · exact ⟨String.ext (List.append_cancel_right (List.append_cancel_right hd)), rfl⟩
  · exfalso
    have h2 := congrArg List.reverse hd
    simp [List.reverse_append] at h2
  · exfalso
    have h2 := congrArg List.reverse hd
    simp [List.reverse_append] at h2
  · exact ⟨String.ext (List.append_cancel_right (List.append_cancel_right hd)), rfl⟩

/-- The fingerprint string is computed from the id and the visible flag. -/
lemma layerKey_congr (l1 l2 : LayerInstance) (hid : l1.id = l2.id)
    (hv : l1.visible = l2.visible) : layerKey l1 = layerKey l2 := by
  unfold layerKey
  rw [hid, hv]

/-- Fingerprint lists agree exactly when the `(id, visible)` sequences
agree. -/
lemma layerStructure_eq_iff : ∀ a b : List LayerInstance,
    layerStructure a = layerStructure b ↔
      a.map (fun l => (l.id, l.visible)) = b.map (fun l => (l.id, l.visible)) := by
  intro a
  induction a with
  | nil => intro b; cases b <;> simp [layerStructure]
  | cons x xs ih =>
    intro b
    cases b with
    | nil => simp [layerStructure]
    | cons y ys =>
      simp only [layerStructure, List.map_cons, List.cons.injEq, Prod.mk.injEq]
      constructor
      · rintro ⟨hk, hrest⟩
        obtain ⟨hid, hv⟩ := layerKey_inj x y hk
        exact ⟨⟨hid, hv⟩, (ih ys).1 hrest⟩
      · rintro ⟨⟨hid, hv⟩, hrest⟩
        exact ⟨layerKey_congr x y hid hv, (ih ys).2 hrest⟩

/-- C6.  On a layers change the engine rebuilds exactly when the previous
build's fingerprint and the current `(id, visible)` sequence differ in
length, in some id, or in some visibility flag; otherwise it only patches
uniform values in place. -/
theorem layersChangedAction_rebuild_iff
    (prev layers : List LayerInstance) :
    (layersChangedAction (layerStructure prev) layers = .rebuild ↔
      prev.map (fun l => (l.id, l.visible)) ≠ layers.map (fun l => (l.id, l.visible))) ∧
    (layersChangedAction (layerStructure prev) layers = .patch ↔
      prev.map (fun l => (l.id, l.visible)) = layers.map (fun l => (l.id, l.visible))) := by
  unfold layersChangedAction
  by_cases h : arraysEqual (layerStructure prev) (layerStructure layers) = true
  · have hs := (layerStructure_eq_iff prev layers).1 ((arraysEqual_iff _ _).1 h)
    simp [h, hs]
  · have hs : ¬ (prev.map (fun l => (l.id, l.visible)) =
        layers.map (fun l => (l.id, l.visible))) := by
      intro heq
      exact h ((arraysEqual_iff _ _).2 ((layerStructure_eq_iff prev layers).2 heq))
    simp [h, hs]

/-- A `setU` write at a different key is invisible. -/
lemma setU_apply_ne (u : Uniforms) (a : String) (v : UVal) (k : String)
    (h : k ≠ a) : setU u a v k = u k := by
  simp [setU, h]

/-- A key not declared by any parameter is untouched by the uniform-build
fold. -/
lemma setU_fold_not_mem (f : ParamDef → UVal) :
    ∀ (ps : List ParamDef) (u0 : Uniforms) (k : String),
      k ∉ ps.map ParamDef.key →
      (ps.foldl (fun u p => setU u p.key (f p)) u0) k = u0 k := by
  intro ps
  induction ps with
  | nil => intro u0 k _; rfl
  | cons p ps ih =>
    intro u0 k hk
    rw [List.foldl_cons, ih _ k (fun h => hk (by simp [h]))]
    exact setU_apply_ne _ _ _ _ (fun h => hk (by simp [h]))

/-- Every declared key is present after the uniform-build fold. -/
lemma setU_fold_isSome (f : ParamDef → UVal) :
    ∀ (ps : List ParamDef) (u0 : Uniforms) (k : String),
      k ∈ ps.map ParamDef.key →
      ((ps.foldl (fun u p => setU u p.key (f p)) u0) k).isSome = true := by
  intro ps
  induction ps with
  | nil => intro u0 k hk; simp at hk
  | cons p ps ih =>
    intro u0 k hk
    rw [List.foldl_cons]
    by_cases hmem : k ∈ ps.map ParamDef.key
    · exact ih _ k hmem
    · have hkey : k = p.key := by
        rcases (by simpa using hk : k = p.key ∨ ∃ a ∈ ps, a.key = k) with h | ⟨a, ha, hak⟩
        · exact h
        · exact absurd (List.mem_map.2 ⟨a, ha, hak⟩) hmem
      rw [setU_fold_not_mem f ps _ k hmem, hkey]
      simp [setU]

/-- Patching a uniform map that already holds every declared key, and that
agrees with `v` elsewhere, produces exactly the uniform map built fresh
from `v`: the shared resolution logic makes patch and rebuild coincide. -/
lemma patch_fold_eq_build (g : ParamDef → UVal) :
    ∀ (ps : List ParamDef) (u v : Uniforms),
      (∀ k, k ∈ ps.map ParamDef.key → ((u k).isSome = true)) →
      (∀ k, k ∉ ps.map ParamDef.key → u k = v k) →
      ps.foldl (fun u p => if (u p.key).isSome then setU u p.key (g p) else u) u
        = ps.foldl (fun u p => setU u p.key (g p)) v := by
  intro ps
  induction ps with
  | nil =>
    intro u v _ h2
    exact funext fun k => h2 k (by simp)
  | cons p ps ih =>
    intro u v h1 h2
    rw [List.foldl_cons, List.foldl_cons]
    have hsome : (u p.key).isSome = true := h1 p.key (by simp)
    rw [if_pos hsome]
    apply ih
    · intro k hk
      by_cases hkey : k = p.key
      · subst hkey; simp [setU]
      · rw [setU_apply_ne _ _ _ _ hkey]
        exact h1 k (by simp [hk])
    · intro k hk
      by_cases hkey : k = p.key
      · subst hkey; simp [setU]
      · rw [setU_apply_ne _ _ _ _ hkey, setU_apply_ne _ _ _ _ hkey]
        exact h2 k (by simp [hk, hkey])

/-- Patching a built pass material with new parameters equals building the
material from the new parameters. -/
lemma patchPlugin_materialUniforms (pl : PluginDefinition) (pOld pNew : PMap) :
    patchPlugin pl pNew (materialUniforms pl pOld) = materialUniforms pl pNew := by
  unfold patchPlugin materialUniforms
  exact patch_fold_eq_build (fun p => UVal.num (resolveParam pNew p)) pl.parameters
    _ _
    (fun k hk => setU_fold_isSome _ pl.parameters _ k hk)
    (fun k hk => setU_fold_not_mem _ pl.parameters _ k hk)

/-- A `setPass` write at a different key is invisible. -/
lemma setPass_apply_ne (pm : PassMap) (a : String) (u : Uniforms) (k : String)
    (h : k ≠ a) : setPass pm a u k = pm k := by
  simp [setPass, h]

/-- What one patch step does to one pass-map entry, as a function of the
entry's previous value. -/
def patchAt (reg : Registry) (t : TransientMap) (l : LayerInstance) :
    Option Uniforms → Option Uniforms
  | none => none
  | some uni =>
    if !l.visible then some uni
    else
      match reg l.pluginId with
      | none => some uni
      | some pl => some (patchPlugin pl (mergedParams l t) uni)

/-- Pointwise reading of `patchStep`: only the entry under the layer's id
changes, and it changes by `patchAt`. -/
lemma patchStep_apply (reg : Registry) (t : TransientMap) (pm : PassMap)
    (l : LayerInstance) (k : String) :
    patchStep reg t pm l k = if l.id = k then patchAt reg t l (pm k) else pm k := by
  unfold patchStep patchAt
  by_cases hid : l.id = k
  · subst hid
    cases hpm : pm l.id with
    | none => simp [hpm]
    | some uni =>
      cases hv : l.visible with
      | false => simp [hpm, hv]
      | true =>
        cases hr : reg l.pluginId with
        | none => simp [hpm, hv, hr]
        | some pl => simp [hpm, hv, hr, setPass]
  · have hki : ¬ (k = l.id) := fun h => hid h.symm
    cases hpm : pm l.id with
    | none => simp [hid]
    | some uni =>
      cases hv : l.visible with
      | false => simp [hid]
      | true =>
        cases hr : reg l.pluginId with
        | none => simp [hid]
        | some pl => simp [hid, setPass, hki]

/-- Folding patch steps over layers with pairwise-distinct ids reads, per
entry, as one `patchAt` by the unique layer with that id, if any. -/
lemma patch_foldl_apply (reg : Registry) (t : TransientMap) :
    ∀ (ls : List LayerInstance) (pm : PassMap) (k : String),
      (ls.map LayerInstance.id).Nodup →
      (ls.foldl (patchStep reg t) pm) k =
        match ls.find? (fun l => l.id == k) with
        | none => pm k
        | some l => patchAt reg t l (pm k) := by
  intro ls
  induction ls with
  | nil => intro pm k _; rfl
  | cons l ls ih =>
    intro pm k hnd
    rw [List.map_cons] at hnd
    obtain ⟨hnotin, hnd2⟩ := List.nodup_cons.1 hnd
    rw [List.foldl_cons, ih _ k hnd2]
    by_cases hid : l.id = k
    · have hnone : ls.find? (fun l2 => l2.id == k) = none := by
        rw [List.find?_eq_none]
        intro l2 hl2
        simp only [beq_iff_eq]
        intro hk2
        exact hnotin (List.mem_map.2 ⟨l2, hl2, by rw [hk2, hid]⟩)
      rw [hnone, List.find?_cons_of_pos _ (by simp [hid])]
      rw [patchStep_apply, if_pos hid]
    · rw [List.find?_cons_of_neg _ (by simp [hid])]
      have hstep : patchStep reg t pm l k = pm k := by
        rw [patchStep_apply, if_neg hid]
      cases hf : ls.find? (fun l2 => l2.id == k) <;> simp [hstep]

/-- An invisible head layer contributes no pass. -/
lemma rebuildPassList_cons_invisible (reg : Registry) (t : TransientMap)
    (l : LayerInstance) (ls : List LayerInstance) (hv : l.visible = false) :
    rebuildPassList (l :: ls) reg t = rebuildPassList ls reg t := by
  unfold rebuildPassList
  rw [List.filterMap_cons]
  simp [hv]

/-- A head layer with an unregistered plugin contributes no pass. -/
lemma rebuildPassList_cons_missing (reg : Registry) (t : TransientMap)
    (l : LayerInstance) (ls : List LayerInstance) (hv : l.visible = true)
    (hr : reg l.pluginId = none) :
    rebuildPassList (l :: ls) reg t = rebuildPassList ls reg t := by
  unfold rebuildPassList
  rw [List.filterMap_cons]
  simp [hv, hr]

/-- A visible, registered head layer contributes its material pass. -/
lemma rebuildPassList_cons_some (reg : Registry) (t : TransientMap)
    (l : LayerInstance) (ls : List LayerInstance) (pl : PluginDefinition)
    (hv : l.visible = true) (hr : reg l.pluginId = some pl) :
    rebuildPassList (l :: ls) reg t =
      (l.id, materialUniforms pl (mergedParams l t)) :: rebuildPassList ls reg t := by
  unfold rebuildPassList
  rw [List.filterMap_cons]
  simp [hv, hr]

/-- Entries of the rebuilt pass list carry ids of the built layers. -/
lemma rebuildPassList_ids (reg : Registry) (t : TransientMap) :
    ∀ (ls : List LayerInstance) (e : String × Uniforms),
      e ∈ rebuildPassList ls reg t → e.1 ∈ ls.map LayerInstance.id := by
  intro ls
  induction ls with
  | nil => intro e he; simp [rebuildPassList] at he
  | cons l ls ih =>
    intro e he
    cases hv : l.visible with
    | false =>
      rw [rebuildPassList_cons_invisible reg t l ls hv] at he
      exact List.mem_cons_of_mem _ (ih e he)
    | true =>
      cases hr : reg l.pluginId with
      | none =>
        rw [rebuildPassList_cons_missing reg t l ls hv hr] at he
        exact List.mem_cons_of_mem _ (ih e he)
      | some pl =>
        rw [rebuildPassList_cons_some reg t l ls pl hv hr] at he
        rcases List.mem_cons.1 he with h | h
        · rw [h]; exact List.mem_cons_self _ _
        · exact List.mem_cons_of_mem _ (ih e h)

/-- A `setPass` fold only reads its seed at the inspected key. -/
lemma setPassFold_congr :
    ∀ (es : List (String × Uniforms)) (pm pm2 : PassMap) (k : String),
      pm k = pm2 k →
      (es.foldl (fun pm e => setPass pm e.1 e.2) pm) k =
        (es.foldl (fun pm e => setPass pm e.1 e.2) pm2) k := by
  intro es
  induction es with
  | nil => intro pm pm2 k h; exact h
  | cons e es ih =>
    intro pm pm2 k h
    rw [List.foldl_cons, List.foldl_cons]
    apply ih
    by_cases hk : k = e.1
    · simp [setPass, hk]
    · simp [setPass, hk, h]

/-- A `setPass` fold over entries avoiding a key leaves it untouched. -/
lemma setPassFold_not_mem :
    ∀ (es : List (String × Uniforms)) (pm : PassMap) (k : String),
      (∀ e ∈ es, e.1 ≠ k) →
      (es.foldl (fun pm e => setPass pm e.1 e.2) pm) k = pm k := by
  intro es
  induction es with
  | nil => intro pm k _; rfl
  | cons e es ih =>
    intro pm k h
    rw [List.foldl_cons, ih _ k (fun e2 he2 => h e2 (by simp [he2]))]
    exact setPass_apply_ne _ _ _ _ (fun hk => h e (by simp) hk.symm)

/-- Pointwise reading of the rebuilt `passMap` under pairwise-distinct
ids: the entry of an id is the material of the unique layer with that id,
when that layer is visible and registered. -/
lemma rebuild_apply (reg : Registry) (t : TransientMap) :
    ∀ (ls : List LayerInstance),
      (ls.map LayerInstance.id).Nodup → ∀ k,
      rebuildPassMap ls reg t k =
        match ls.find? (fun l => l.id == k) with
        | none => none
        | some l =>
          if !l.visible then none
          else (reg l.pluginId).map (fun pl => materialUniforms pl (mergedParams l t)) := by
  intro ls
  induction ls with
  | nil => intro _ k; rfl
  | cons l ls ih =>
    intro hnd k
    rw [List.map_cons] at hnd
    obtain ⟨hnotin, hnd2⟩ := List.nodup_cons.1 hnd
    have htail := ih hnd2 k
    by_cases hid : l.id = k
    · have hnone : ls.find? (fun l2 => l2.id == k) = none := by
        rw [List.find?_eq_none]
        intro l2 hl2
        simp only [beq_iff_eq]
        intro hk2
        exact hnotin (List.mem_map.2 ⟨l2, hl2, by rw [hk2, hid]⟩)
      rw [List.find?_cons_of_pos _ (by simp [hid])]
      cases hv : l.visible with
      | false =>
        unfold rebuildPassMap
        rw [rebuildPassList_cons_invisible reg t l ls hv]
        have h2 : rebuildPassMap ls reg t k = none := by rw [htail, hnone]
        unfold rebuildPassMap at h2
        rw [h2]
        simp [hv]
      | true =>
        cases hr : reg l.pluginId with
        | none =>
          unfold rebuildPassMap
          rw [rebuildPassList_cons_missing reg t l ls hv hr]
          have h2 : rebuildPassMap ls reg t k = none := by rw [htail, hnone]
          unfold rebuildPassMap at h2
          rw [h2]
          simp [hv, hr]
        | some pl =>
          unfold rebuildPassMap
          rw [rebuildPassList_cons_some reg t l ls pl hv hr, List.foldl_cons]
          rw [setPassFold_not_mem _ _ k ?hne]
          case hne =>
            intro e he hek
            apply hnotin
            rw [hid]
            have hmem := rebuildPassList_ids reg t ls e he
            rw [hek] at hmem
            exact hmem
          simp [setPass, hid, hv, hr]
    · rw [List.find?_cons_of_neg _ (by simp [hid])]
      cases hv : l.visible with
      | false =>
        unfold rebuildPassMap
        rw [rebuildPassList_cons_invisible reg t l ls hv]
        exact htail
      | true =>
        cases hr : reg l.pluginId with
        | none =>
          unfold rebuildPassMap
          rw [rebuildPassList_cons_missing reg t l ls hv hr]
          exact htail
        | some pl =>
          unfold rebuildPassMap
          rw [rebuildPassList_cons_some reg t l ls pl hv hr, List.foldl_cons]
          rw [setPassFold_congr _ _ (fun _ => none) k
            (setPass_apply_ne _ _ _ _ (fun h => hid h.symm))]
          exact htail

/-- `find?` by id agrees, up to params, between two layer lists of equal
`(id, pluginId, visible)` structure. -/
lemma find?_structure :
    ∀ (lsO lsN : List LayerInstance),
      lsO.map (fun l => (l.id, l.pluginId, l.visible)) =
        lsN.map (fun l => (l.id, l.pluginId, l.visible)) →
      ∀ k,
      (lsO.find? (fun l => l.id == k) = none ∧
        lsN.find? (fun l => l.id == k) = none) ∨
      (∃ lO lN, lsO.find? (fun l => l.id == k) = some lO ∧
        lsN.find? (fun l => l.id == k) = some lN ∧
        lO.id = lN.id ∧ lO.pluginId = lN.pluginId ∧ lO.visible = lN.visible) := by
  intro lsO
  induction lsO with
  | nil =>
    intro lsN h k
    cases lsN with
    | nil => left; simp
    | cons y ys => simp at h
  | cons x xs ih =>
    intro lsN h k
    cases lsN with
    | nil => simp at h
    | cons y ys =>
      simp only [List.map_cons, List.cons.injEq, Prod.mk.injEq] at h
      obtain ⟨⟨hid, hpl, hv⟩, hrest⟩ := h
      by_cases hk : x.id = k
      · right
        exact ⟨x, y, List.find?_cons_of_pos _ (by simp [hk]),
          List.find?_cons_of_pos _ (by simp [← hid, hk]), hid, hpl, hv⟩
      · rw [List.find?_cons_of_neg _ (by simp [hk]),
          List.find?_cons_of_neg _ (by simp [← hid, hk])]
        exact ih ys hrest k

/-- C2.  For a structure-preserving change (same ids, plugin ids and
visibility flags position by position, ids pairwise distinct), patching the
pass map built from the old committed/transient parameters with the new
parameters yields exactly the pass map a full rebuild computes from the new
parameters: both paths resolve each declared parameter as transient
override, else committed value, else schema default. -/
theorem patch_equals_rebuild
    (lsOld lsNew : List LayerInstance) (reg : Registry)
    (tOld tNew : TransientMap)
    (hs : lsOld.map (fun l => (l.id, l.pluginId, l.visible)) =
          lsNew.map (fun l => (l.id, l.pluginId, l.visible)))
    (hnd : (lsNew.map LayerInstance.id).Nodup) :
    updatePassParameters lsNew reg tNew (rebuildPassMap lsOld reg tOld) =
      rebuildPassMap lsNew reg tNew := by
  have hids : lsOld.map LayerInstance.id = lsNew.map LayerInstance.id := by
    have h2 := congrArg (List.map (fun p : String × String × Bool => p.1)) hs
    simpa [List.map_map, Function.comp] using h2
  have hndO : (lsOld.map LayerInstance.id).Nodup := hids ▸ hnd
  funext k
  unfold updatePassParameters
  rw [patch_foldl_apply reg tNew lsNew _ k hnd, rebuild_apply reg tNew lsNew hnd k]
  rcases find?_structure lsOld lsNew hs k with ⟨hO, hN⟩ | ⟨lO, lN, hO, hN, hid, hpl, hv⟩
  · rw [hN, rebuild_apply reg tOld lsOld hndO k, hO]
  · rw [hN, rebuild_apply reg tOld lsOld hndO k, hO]
    cases hvis : lN.visible with
    | false =>
      have hvO : lO.visible = false := hv.trans hvis
      simp [patchAt, hvO, hvis]
    | true =>
      have hvO : lO.visible = true := hv.trans hvis
      cases hreg : reg lN.pluginId with
      | none =>
        have hregO : reg lO.pluginId = none := by rw [hpl]; exact hreg
        simp [patchAt, hvO, hvis, hregO, hreg]
      | some pl =>
        have hregO : reg lO.pluginId = some pl := by rw [hpl]; exact hreg
        simp [patchAt, hvO, hvis, hregO, hreg, patchPlugin_materialUniforms]

/-- One declared slider, so that patch and rebuild actually resolve a
parameter in the C2 witness. -/
def regContrast : Registry :=
  fun id => if id = "contrast" then
    some { parameters := [⟨"contrast", 0⟩], getEffectRadius := none } else none

/-- The witness layer before the parameter change. -/
def layerCOld : LayerInstance :=
  { id := "A", pluginId := "contrast", visible := true,
    params := fun q => if q = "contrast" then some 10 else none }

/-- The witness layer after committing a new value. -/
def layerCNew : LayerInstance :=
  { id := "A", pluginId := "contrast", visible := true,
    params := fun q => if q = "contrast" then some 40 else none }

/-- Witness for C2: a one-layer pipeline with a transient override removed
and the committed value changed patches to exactly the rebuilt pass map. -/
theorem patch_equals_rebuild_witness :
    updatePassParameters [layerCNew] regContrast (fun _ => none)
        (rebuildPassMap [layerCOld] regContrast
          (fun id => if id = "A" then some (fun q => if q = "contrast" then some 25 else none) else none)) =
      rebuildPassMap [layerCNew] regContrast (fun _ => none) :=
  patch_equals_rebuild [layerCOld] [layerCNew] regContrast _ _
    (by decide) (by decide)

/-- A patch step over a layer whose plugin is missing does nothing. -/
lemma patchStep_missing (reg : Registry) (t : TransientMap) (pm : PassMap)
    (bad : LayerInstance) (hbad : reg bad.pluginId = none) :
    patchStep reg t pm bad = pm := by
  unfold patchStep
  cases hpm : pm bad.id with
  | none => rfl
  | some uni =>
    cases hv : bad.visible with
    | false => rfl
    | true => simp [hbad]

/-- C9.  A layer whose plugin id is not in the registry is skipped
everywhere: dropping it from the layer list changes neither the rebuilt
pass list (no pass is created for it), nor the patch result, nor the
exporter's pass list, nor the exporter's padding; every other layer is
still processed, and all four paths are total functions (no error). -/
theorem missing_plugin_skipped
    (reg : Registry) (bad : LayerInstance) (hbad : reg bad.pluginId = none)
    (ls1 ls2 : List LayerInstance) (t : TransientMap) (pm : PassMap) (bs : ℚ) :
    rebuildPassList (ls1 ++ bad :: ls2) reg t = rebuildPassList (ls1 ++ ls2) reg t ∧
    rebuildPassMap (ls1 ++ bad :: ls2) reg t = rebuildPassMap (ls1 ++ ls2) reg t ∧
    updatePassParameters (ls1 ++ bad :: ls2) reg t pm =
      updatePassParameters (ls1 ++ ls2) reg t pm ∧
    exporterPasses (ls1 ++ bad :: ls2) reg = exporterPasses (ls1 ++ ls2) reg ∧
    exportMaxPaddingQ (ls1 ++ bad :: ls2) reg bs = exportMaxPaddingQ (ls1 ++ ls2) reg bs := by
  have hlist : rebuildPassList (ls1 ++ bad :: ls2) reg t =
      rebuildPassList (ls1 ++ ls2) reg t := by
    unfold rebuildPassList
    rw [List.filterMap_append, List.filterMap_append, List.filterMap_cons]
    cases hv : bad.visible <;> simp [hbad]
  refine ⟨hlist, by unfold rebuildPassMap; rw [hlist], ?_, ?_, ?_⟩
  · unfold updatePassParameters
    rw [List.foldl_append, List.foldl_append, List.foldl_cons,
      patchStep_missing reg t _ bad hbad]
  · unfold exporterPasses
    rw [List.filterMap_append, List.filterMap_append, List.filterMap_cons]
    cases hv : bad.visible <;> simp [hbad]
  · unfold exportMaxPaddingQ
    rw [List.foldl_append, List.foldl_append, List.foldl_cons]
    have : ∀ m, paddingStep reg bs m bad = m := by
      intro m; unfold paddingStep; rw [hbad]
    rw [this]

/-- Witness for C9: a concrete pipeline with one registered and one
unregistered layer behaves as if the unregistered layer were absent. -/
theorem missing_plugin_skipped_witness :
    rebuildPassList [layerBlurVisible,
        { id := "X", pluginId := "missing", visible := true, params := emptyPMap }]
        regBlur (fun _ => none) =
      rebuildPassList [layerBlurVisible] regBlur (fun _ => none) ∧
    exportMaxPaddingQ [layerBlurVisible,
        { id := "X", pluginId := "missing", visible := true, params := emptyPMap }]
        regBlur 1 =
      exportMaxPaddingQ [layerBlurVisible] regBlur 1 := by
  have h := missing_plugin_skipped regBlur
    { id := "X", pluginId := "missing", visible := true, params := emptyPMap }
    rfl [layerBlurVisible] [] (fun _ => none) (fun _ => none) 1
  exact ⟨h.1, h.2.2.2.2⟩

/-! ### Crop coverage (C1) -/

/-- A `min`-foldl is below its seed. -/
lemma foldl_min_le_init : ∀ (l : List ℚ) (a : ℚ), l.foldl min a ≤ a := by
  intro l
  induction l with
  | nil => intro a; exact le_rfl
  | cons x l ih => intro a; exact le_trans (ih (min a x)) (min_le_left a x)

/-- A `min`-foldl is below every member. -/
lemma foldl_min_le_mem : ∀ (l : List ℚ) (a v : ℚ), v ∈ l → l.foldl min a ≤ v := by
  intro l
  induction l with
  | nil => intro a v hv; simp at hv
  | cons x l ih =>
    intro a v hv
    rcases List.mem_cons.1 hv with h | h
    · subst h; exact le_trans (foldl_min_le_init l (min a v)) (min_le_right a v)
    · exact ih (min a x) v h

/-- `qListMin` is below every member (the `Infinity` seed of the source is
immaterial on non-empty lists). -/
lemma qListMin_le (l : List ℚ) (v : ℚ) (hv : v ∈ l) : qListMin l ≤ v := by
  cases l with
  | nil => simp at hv
  | cons q r =>
    rcases List.mem_cons.1 hv with h | h
    · subst h; exact foldl_min_le_init r v
    · exact foldl_min_le_mem r q v h

/-- A `max`-foldl is above its seed. -/
lemma init_le_foldl_max : ∀ (l : List ℚ) (a : ℚ), a ≤ l.foldl max a := by
  intro l
  induction l with
  | nil => intro a; exact le_rfl
  | cons x l ih => intro a; exact le_trans (le_max_left a x) (ih (max a x))

/-- A `max`-foldl is above every member. -/
lemma mem_le_foldl_max : ∀ (l : List ℚ) (a v : ℚ), v ∈ l → v ≤ l.foldl max a := by
  intro l
  induction l with
  | nil => intro a v hv; simp at hv
  | cons x l ih =>
    intro a v hv
    rcases List.mem_cons.1 hv with h | h
    · subst h; exact le_trans (le_max_right a v) (init_le_foldl_max l (max a v))
    · exact ih (max a x) v h

/-- `qListMax` is above every member. -/
lemma le_qListMax (l : List ℚ) (v : ℚ) (hv : v ∈ l) : v ≤ qListMax l := by
  cases l with
  | nil => simp at hv
  | cons q r =>
    rcases List.mem_cons.1 hv with h | h
    · subst h; exact init_le_foldl_max r v
    · exact mem_le_foldl_max r q v h

/-- The horizontal clamp interval of `clampPan` is nonempty. -/
def clampFeasibleX (co si : ℚ → ℚ) (st : CropperUIState) : Prop :=
  (clampBounds co si st).1 ≤ (clampBounds co si st).2.1

/-- The vertical clamp interval of `clampPan` is nonempty. -/
def clampFeasibleY (co si : ℚ → ℚ) (st : CropperUIState) : Prop :=
  (clampBounds co si st).2.2.1 ≤ (clampBounds co si st).2.2.2

instance (co si : ℚ → ℚ) (st : CropperUIState) :
    Decidable (clampFeasibleX co si st) := by
  unfold clampFeasibleX; infer_instance

instance (co si : ℚ → ℚ) (st : CropperUIState) :
    Decidable (clampFeasibleY co si st) := by
  unfold clampFeasibleY; infer_instance

/-- `clampPan`, with its local bindings expanded. -/
lemma clampPan_eq (co si : ℚ → ℚ) (st : CropperUIState) :
    clampPan co si st =
      ⟨if (clampBounds co si st).1 > (clampBounds co si st).2.1 then
          ((clampBounds co si st).1 + (clampBounds co si st).2.1) / 2
        else max (clampBounds co si st).1 (min (clampBounds co si st).2.1 st.panX),
       if (clampBounds co si st).2.2.1 > (clampBounds co si st).2.2.2 then
          ((clampBounds co si st).2.2.1 + (clampBounds co si st).2.2.2) / 2
        else max (clampBounds co si st).2.2.1 (min (clampBounds co si st).2.2.2 st.panY)⟩ := rfl

/-- C1 (amended).  After the pan operation — screen delta rotated into
image-local space, then `clampPan` — every crop-box corner rotated into
image-local space satisfies `|x - panX| ≤ (currentImgWidth/2)·scale` and
`|y - panY| ≤ (currentImgHeight/2)·scale` exactly (so in particular within
`1e-6`), whenever the two per-axis clamp intervals are nonempty (the box
not larger than the image on either axis). -/
theorem panOp_coverage (co si : ℚ → ℚ) (st : CropperUIState) (dx dy : ℚ)
    (hfx : clampFeasibleX co si (panApply co si dx dy st))
    (hfy : clampFeasibleY co si (panApply co si dx dy st)) :
    coverageWithin 0 co si (panOp co si dx dy st) := by
  set st2 := panApply co si dx dy st with hst2
  intro q hq
  have hq2 : q ∈ rotatedCorners co si st2 := hq
  have hxmem : q.x ∈ (rotatedCorners co si st2).map Pt.x :=
    List.mem_map.2 ⟨q, hq2, rfl⟩
  have hymem : q.y ∈ (rotatedCorners co si st2).map Pt.y :=
    List.mem_map.2 ⟨q, hq2, rfl⟩
  have hxlo := qListMin_le _ q.x hxmem
  have hxhi := le_qListMax _ q.x hxmem
  have hylo := qListMin_le _ q.y hymem
  have hyhi := le_qListMax _ q.y hymem
  have hpx : (panOp co si dx dy st).panX =
      max (clampBounds co si st2).1 (min (clampBounds co si st2).2.1 st2.panX) := by
    show (clampPan co si st2).x = _
    rw [clampPan_eq, if_neg (not_lt.2 hfx)]
  have hpy : (panOp co si dx dy st).panY =
      max (clampBounds co si st2).2.2.1 (min (clampBounds co si st2).2.2.2 st2.panY) := by
    show (clampPan co si st2).y = _
    rw [clampPan_eq, if_neg (not_lt.2 hfy)]
  have hb1 : (clampBounds co si st2).1 =
      qListMax ((rotatedCorners co si st2).map Pt.x) -
        st2.currentImgWidth * st2.scale / 2 := rfl
  have hb2 : (clampBounds co si st2).2.1 =
      qListMin ((rotatedCorners co si st2).map Pt.x) +
        st2.currentImgWidth * st2.scale / 2 := rfl
  have hb3 : (clampBounds co si st2).2.2.1 =
      qListMax ((rotatedCorners co si st2).map Pt.y) -
        st2.currentImgHeight * st2.scale / 2 := rfl
  have hb4 : (clampBounds co si st2).2.2.2 =
      qListMin ((rotatedCorners co si st2).map Pt.y) +
        st2.currentImgHeight * st2.scale / 2 := rfl
  have hgex : (clampBounds co si st2).1 ≤ (panOp co si dx dy st).panX := by
    rw [hpx]; exact le_max_left _ _
  have hlex : (panOp co si dx dy st).panX ≤ (clampBounds co si st2).2.1 := by
    rw [hpx]; exact max_le hfx (min_le_left _ _)
  have hgey : (clampBounds co si st2).2.2.1 ≤ (panOp co si dx dy st).panY := by
    rw [hpy]; exact le_max_left _ _
  have hley : (panOp co si dx dy st).panY ≤ (clampBounds co si st2).2.2.2 := by
    rw [hpy]; exact max_le hfy (min_le_left _ _)
  rw [hb1] at hgex
  rw [hb2] at hlex
  rw [hb3] at hgey
  rw [hb4] at hley
  have hWeq : (panOp co si dx dy st).currentImgWidth / 2 * (panOp co si dx dy st).scale
      = st2.currentImgWidth * st2.scale / 2 := by
    rw [show (panOp co si dx dy st).currentImgWidth = st2.currentImgWidth from rfl,
        show (panOp co si dx dy st).scale = st2.scale from rfl]
    ring
  have hHeq : (panOp co si dx dy st).currentImgHeight / 2 * (panOp co si dx dy st).scale
      = st2.currentImgHeight * st2.scale / 2 := by
    rw [show (panOp co si dx dy st).currentImgHeight = st2.currentImgHeight from rfl,
        show (panOp co si dx dy st).scale = st2.scale from rfl]
    ring
  constructor
  · rw [abs_le, hWeq, add_zero]
    constructor <;> linarith [hxlo, hxhi, hgex, hlex]
  · rw [abs_le, hHeq, add_zero]
    constructor <;> linarith [hylo, hyhi, hgey, hley]

/-- `Math.cos(-θ·π/180)` restricted to the rotation-0 states of the
concrete instances below: `cos 0 = 1` exactly. -/
def cosDeg0 : ℚ → ℚ := fun _ => 1

/-- `Math.sin(-θ·π/180)` at rotation 0: `sin 0 = 0` exactly. -/
def sinDeg0 : ℚ → ℚ := fun _ => 0

/-- Witness for the amended C1 at a concrete rotation-0 state: a small pan
from the fresh 1100×1100 crop state is feasible on both axes and lands
inside the coverage bounds. -/
theorem panOp_coverage_witness :
    clampFeasibleX cosDeg0 sinDeg0 (panApply cosDeg0 sinDeg0 5 3 (cropInit 1100 1100)) ∧
    clampFeasibleY cosDeg0 sinDeg0 (panApply cosDeg0 sinDeg0 5 3 (cropInit 1100 1100)) ∧
    coverageWithin 0 cosDeg0 sinDeg0 (panOp cosDeg0 sinDeg0 5 3 (cropInit 1100 1100)) :=
  ⟨by with_unfolding_all decide, by with_unfolding_all decide,
    panOp_coverage cosDeg0 sinDeg0 (cropInit 1100 1100) 5 3
      (by with_unfolding_all decide) (by with_unfolding_all decide)⟩

set_option maxRecDepth 200000 in
/-- C1 (counterexample).  The claim as stated fails: from the fresh
1100×1100 crop state (which satisfies the invariant with equality), the
single resize operation `resizeOp "r" 100 0` is reachable, and its result
violates the 1e-6 coverage bound — the solver's binary search accepts a
shrink factor whose right edge overshoots the image half-extent by
`25/1024 ≈ 0.0244` pixels, inside its `0.1`-pixel validation tolerance. -/
theorem cropCoverage_counterexample :
    Reach cosDeg0 sinDeg0 (cropInit 1100 1100)
      (resizeOp cosDeg0 sinDeg0 "r" 100 0 (cropInit 1100 1100)) ∧
    ¬ coverageWithin (1 / 1000000) cosDeg0 sinDeg0
      (resizeOp cosDeg0 sinDeg0 "r" 100 0 (cropInit 1100 1100)) :=
  ⟨Reach.resize "r" 100 0 Reach.init, by with_unfolding_all decide⟩

/-! ### Resize containment solve (C5) -/

/-- Lifting the seed of a `max`-foldr below an upper seed. -/
lemma foldr_max_lift : ∀ (F : List ℚ) (a b : ℚ), b ≤ a →
    F.foldr max a = max a (F.foldr max b) := by
  intro F
  induction F with
  | nil => intro a b hba; exact (max_eq_left hba).symm
  | cons x F ih =>
    intro a b hba
    rw [List.foldr_cons, List.foldr_cons, ih a b hba, max_left_comm]

/-- The binary search tests exactly `n` factors. -/
lemma resizeSearchTrace_length (ok : ℚ → Bool) :
    ∀ (n : ℕ) (low high : ℚ), (resizeSearchTrace ok n low high).length = n := by
  intro n
  induction n with
  | zero => intro low high; rfl
  | succ n ih =>
    intro low high
    unfold resizeSearchTrace
    by_cases h : ok ((low + high) / 2) <;> simp [h, ih]

/-- The factor the binary search returns is the largest tested factor that
validates (the seed `best` if none does): `bestScale` is only ever moved up
to an accepted midpoint, and accepted midpoints increase along the run. -/
lemma resizeSearch_eq_foldr (ok : ℚ → Bool) :
    ∀ (n : ℕ) (low high best : ℚ), best ≤ low → low < high →
      resizeSearch ok n low high best =
        ((resizeSearchTrace ok n low high).filter (fun t => ok t)).foldr max best := by
  intro n
  induction n with
  | zero => intro low high best _ _; rfl
  | succ n ih =>
    intro low high best hbl hlh
    have hmid1 : low < (low + high) / 2 := by linarith
    have hmid2 : (low + high) / 2 < high := by linarith
    by_cases h : ok ((low + high) / 2)
    · simp only [resizeSearch, resizeSearchTrace, h, if_true, List.filter_cons,
        List.foldr_cons]
      rw [ih _ _ _ le_rfl hmid2]
      exact foldr_max_lift _ _ best (le_trans hbl hmid1.le)
    · simp only [resizeSearch, resizeSearchTrace, h, if_false, Bool.false_eq_true,
        List.filter_cons]
      exact ih _ _ _ hbl hmid1

/-- C5.  When the candidate box fails the corner validation,
`calculateResize` runs a 10-iteration binary search over a shrink factor in
`[0,1]` from the direction-dependent anchor (the opposite corner for the
corner drags `tl`/`tr`/`bl`/`br`, the box center otherwise), selects the
largest tested factor under which all four shrunken corners validate (`0`
if none does, converged or not), and returns the candidate box shrunk by
that factor, subject to the 50px floor applied afterwards. -/
theorem calculateResize_solver (co si : ℚ → ℚ) (dx dy : ℚ) (dir : String)
    (startW startH startOffX startOffY : ℚ) (keepR : Bool)
    (st : CropperUIState) (cand : Edges)
    (hcand : cand = resizeCandidate dx dy dir startW startH startOffX startOffY keepR st)
    (an : Pt) (han : an = resizeAnchor dir cand)
    (ok : ℚ → Bool) (hok : ok = shrinkFactorOK co si st an cand)
    (best : ℚ) (hbest : best = resizeSearch ok 10 0 1 0)
    (hinv : cornersOK co si st (edgeCorners cand) = false) :
    calculateResize co si dx dy dir startW startH startOffX startOffY keepR st =
      ⟨(floor50 (shrunkEdges an cand best)).r - (floor50 (shrunkEdges an cand best)).l,
       (floor50 (shrunkEdges an cand best)).b - (floor50 (shrunkEdges an cand best)).t,
       ((floor50 (shrunkEdges an cand best)).l + (floor50 (shrunkEdges an cand best)).r) / 2,
       ((floor50 (shrunkEdges an cand best)).t + (floor50 (shrunkEdges an cand best)).b) / 2⟩ ∧
    (resizeSearchTrace ok 10 0 1).length = 10 ∧
    best = ((resizeSearchTrace ok 10 0 1).filter (fun t => ok t)).foldr max 0 ∧
    (dir = "tl" → an = ⟨cand.r, cand.b⟩) ∧
    (dir = "br" → an = ⟨cand.l, cand.t⟩) ∧
    (dir = "tr" → an = ⟨cand.l, cand.b⟩) ∧
    (dir = "bl" → an = ⟨cand.r, cand.t⟩) ∧
    (dir ≠ "tl" → dir ≠ "br" → dir ≠ "tr" → dir ≠ "bl" →
      an = ⟨(cand.l + cand.r) / 2, (cand.t + cand.b) / 2⟩) := by
  subst hcand
  subst han
  subst hok
  subst hbest
  refine ⟨?_, resizeSearchTrace_length _ 10 0 1,
    resizeSearch_eq_foldr _ 10 0 1 0 le_rfl (by norm_num),
    ?_, ?_, ?_, ?_, ?_⟩
  · simp only [calculateResize, hinv, Bool.false_eq_true, if_false]
  · intro h; rw [resizeAnchor, h]; simp
  · intro h; rw [resizeAnchor, h]
    rw [if_neg (by decide), if_pos rfl]
  · intro h; rw [resizeAnchor, h]
    rw [if_neg (by decide), if_neg (by decide), if_pos rfl]
  · intro h; rw [resizeAnchor, h]
    rw [if_neg (by decide), if_neg (by decide), if_neg (by decide), if_pos rfl]
  · intro h1 h2 h3 h4
    rw [resizeAnchor, if_neg h1, if_neg h2, if_neg h3, if_neg h4]

set_option maxRecDepth 200000 in
/-- Witness for C5 at a concrete invalid drag (right edge pulled 80px past
a tightly fitting image at rotation 0): the candidate fails validation, the
search tests exactly 10 factors, and the returned best factor is the
largest validating tested factor. -/
theorem calculateResize_solver_witness :
    (cornersOK cosDeg0 sinDeg0 (cropInit 1100 1100)
      (edgeCorners (resizeCandidate 80 0 "r" 550 550 0 0 false (cropInit 1100 1100))) = false) ∧
    (resizeSearchTrace
        (shrinkFactorOK cosDeg0 sinDeg0 (cropInit 1100 1100)
          (resizeAnchor "r" (resizeCandidate 80 0 "r" 550 550 0 0 false (cropInit 1100 1100)))
          (resizeCandidate 80 0 "r" 550 550 0 0 false (cropInit 1100 1100)))
        10 0 1).length = 10 ∧
    resizeSearch
        (shrinkFactorOK cosDeg0 sinDeg0 (cropInit 1100 1100)
          (resizeAnchor "r" (resizeCandidate 80 0 "r" 550 550 0 0 false (cropInit 1100 1100)))
          (resizeCandidate 80 0 "r" 550 550 0 0 false (cropInit 1100 1100)))
        10 0 1 0 =
      ((resizeSearchTrace
          (shrinkFactorOK cosDeg0 sinDeg0 (cropInit 1100 1100)
            (resizeAnchor "r" (resizeCandidate 80 0 "r" 550 550 0 0 false (cropInit 1100 1100)))
            (resizeCandidate 80 0 "r" 550 550 0 0 false (cropInit 1100 1100)))
          10 0 1).filter
        (fun t =>
          shrinkFactorOK cosDeg0 sinDeg0 (cropInit 1100 1100)
            (resizeAnchor "r" (resizeCandidate 80 0 "r" 550 550 0 0 false (cropInit 1100 1100)))
            (resizeCandidate 80 0 "r" 550 550 0 0 false (cropInit 1100 1100)) t)).foldr max 0 := by
  have hinv : cornersOK cosDeg0 sinDeg0 (cropInit 1100 1100)
      (edgeCorners (resizeCandidate 80 0 "r" 550 550 0 0 false (cropInit 1100 1100))) = false := by
    with_unfolding_all decide
  have h := calculateResize_solver cosDeg0 sinDeg0 80 0 "r" 550 550 0 0 false
    (cropInit 1100 1100) _ rfl _ rfl _ rfl _ rfl hinv
  exact ⟨hinv, h.2.1, h.2.2.1⟩

/-! ### Reset-to-fit scale and coverage (C4) -/

/-- The seed is below a `max(max m (f p)) (g p)` fold. -/
lemma foldl_maxfg_init_le (f g : Pt → ℚ) :
    ∀ (l : List Pt) (a : ℚ),
      a ≤ l.foldl (fun m p => max (max m (f p)) (g p)) a := by
  intro l
  induction l with
  | nil => intro a; exact le_rfl
  | cons q l ih =>
    intro a
    exact le_trans (le_trans (le_max_left a (f q)) (le_max_left _ (g q))) (ih _)

/-- Every `f`-term is below the fold. -/
lemma foldl_maxfg_ge_f (f g : Pt → ℚ) :
    ∀ (l : List Pt) (a : ℚ) (p : Pt), p ∈ l →
      f p ≤ l.foldl (fun m p => max (max m (f p)) (g p)) a := by
  intro l
  induction l with
  | nil => intro a p hp; simp at hp
  | cons q l ih =>
    intro a p hp
    rcases List.mem_cons.1 hp with h | h
    · subst h
      exact le_trans (le_trans (le_max_right a (f p)) (le_max_left _ (g p)))
        (foldl_maxfg_init_le f g l _)
    · exact ih _ p h

/-- Every `g`-term is below the fold. -/
lemma foldl_maxfg_ge_g (f g : Pt → ℚ) :
    ∀ (l : List Pt) (a : ℚ) (p : Pt), p ∈ l →
      g p ≤ l.foldl (fun m p => max (max m (f p)) (g p)) a := by
  intro l
  induction l with
  | nil => intro a p hp; simp at hp
  | cons q l ih =>
    intro a p hp
    rcases List.mem_cons.1 hp with h | h
    · subst h
      exact le_trans (le_max_right _ (g p)) (foldl_maxfg_init_le f g l _)
    · exact ih _ p h

/-- The fold is below any bound dominating the seed and all terms. -/
lemma foldl_maxfg_le (f g : Pt → ℚ) :
    ∀ (l : List Pt) (a S : ℚ), a ≤ S → (∀ p ∈ l, f p ≤ S ∧ g p ≤ S) →
      l.foldl (fun m p => max (max m (f p)) (g p)) a ≤ S := by
  intro l
  induction l with
  | nil => intro a S ha _; exact ha
  | cons q l ih =>
    intro a S ha h
    exact ih _ S
      (max_le (max_le ha (h q (by simp)).1) (h q (by simp)).2)
      (fun p hp => h p (by simp [hp]))

/-- The scalar content of `getMinScaleForBox`: when the box-center offset
`P` lies strictly inside the half-extent `L` and the one-sided requirement
`s_req ≤ S` holds for a positive `S`, the axis is covered at scale `S`. -/
lemma axis_min_scale (L P S r : ℚ) (hP : |P| < L) (hS : 0 < S)
    (hreq : (if L + (if r ≥ 0 then P else -P) > 0 then
        |r| / (L + (if r ≥ 0 then P else -P)) else 0) ≤ S) :
    |r - P * S| ≤ L * S := by
  obtain ⟨hP1, hP2⟩ := abs_lt.1 hP
  have hexp1 : (L + P) * S = L * S + P * S := by ring
  have hexp2 : (L + -P) * S = L * S - P * S := by ring
  by_cases hr : r ≥ 0
  · rw [if_pos hr] at hreq
    have hden : 0 < L + P := by linarith
    rw [if_pos hden] at hreq
    have h1 : |r| ≤ S * (L + P) := (div_le_iff₀ hden).1 hreq
    rw [abs_of_nonneg hr] at h1
    have hLP : 0 < (L - P) * S := mul_pos (by linarith) hS
    have hexp3 : (L - P) * S = L * S - P * S := by ring
    have hexp4 : S * (L + P) = L * S + P * S := by ring
    rw [abs_le]
    exact ⟨by linarith, by linarith⟩
  · rw [if_neg hr] at hreq
    have hden : 0 < L + -P := by linarith
    rw [if_pos hden] at hreq
    have h1 : |r| ≤ S * (L + -P) := (div_le_iff₀ hden).1 hreq
    rw [abs_of_neg (lt_of_not_ge hr)] at h1
    have hexp4 : S * (L + -P) = L * S - P * S := by ring
    have hpos : 0 < (L + P) * S := mul_pos (by linarith) hS
    rw [abs_le]
    exact ⟨by linarith, by nlinarith⟩

/-- Conversely, axis coverage at a positive scale `S` bounds the one-sided
requirement by `S`. -/
lemma axis_req_le (L P S r : ℚ) (hS : 0 < S)
    (hcov : |r - P * S| ≤ L * S) :
    (if L + (if r ≥ 0 then P else -P) > 0 then
        |r| / (L + (if r ≥ 0 then P else -P)) else 0) ≤ S := by
  obtain ⟨hc1, hc2⟩ := abs_le.1 hcov
  by_cases hr : r ≥ 0
  · rw [if_pos hr]
    by_cases hden : 0 < L + P
    · rw [if_pos hden, div_le_iff₀ hden, abs_of_nonneg hr]
      have : S * (L + P) = L * S + P * S := by ring
      linarith
    · rw [if_neg hden]; exact hS.le
  · rw [if_neg hr]
    by_cases hden : 0 < L + -P
    · rw [if_pos hden, div_le_iff₀ hden, abs_of_neg (lt_of_not_ge hr)]
      have : S * (L + -P) = L * S - P * S := by ring
      linarith
    · rw [if_neg hden]; exact hS.le

/-- `animateReset` on a non-animating state, written out. -/
lemma animateReset_eq (co si : ℚ → ℚ) (st : CropperUIState)
    (h : st.isAnimating = false) :
    animateReset co si st =
      { st with boxWidth := (animateResetEnd co si st).w,
                boxHeight := (animateResetEnd co si st).h,
                boxOffsetX := 0, boxOffsetY := 0,
                scale := (animateResetEnd co si st).s,
                panX := (animateResetEnd co si st).px,
                panY := (animateResetEnd co si st).py,
                baseScale := (animateResetEnd co si st).s,
                isAnimating := false } := by
  unfold animateReset
  rw [if_neg (by simp [h])]

/-- The canonical target box has positive dimensions. -/
lemma targetBox_pos (st : CropperUIState)
    (hbw : 0 < st.boxWidth) (hbh : 0 < st.boxHeight)
    (haspect : st.aspectRatioVal = none ∨
      ∃ r, st.aspectRatioVal = some r ∧ 0 < r) :
    0 < targetBoxWOf st ∧ 0 < targetBoxHOf st := by
  have hA : 0 < targetAspectOf st := by
    unfold targetAspectOf
    rcases haspect with h | ⟨r, hr, hrpos⟩
    · rw [h]; exact div_pos hbw hbh
    · rw [hr]; exact hrpos
  unfold targetBoxWOf targetBoxHOf
  by_cases h1 : targetAspectOf st > 1
  · rw [if_pos h1, if_pos h1]
    exact ⟨by norm_num, div_pos (by norm_num) hA⟩
  · rw [if_neg h1, if_neg h1]
    exact ⟨mul_pos (by norm_num) hA, by norm_num⟩

/-- Coverage of a state whose box is the `getMinScaleForBox` box at scale
`S ≥ getMinScaleForBox` and pan `relPan·S`. -/
lemma coverage_of_minScale (co si : ℚ → ℚ) (st : CropperUIState)
    (tw th Px Py S : ℚ)
    (hS : getMinScaleForBox co si tw th Px Py st ≤ S) (hSpos : 0 < S)
    (hPx : |Px| < st.currentImgWidth / 2) (hPy : |Py| < st.currentImgHeight / 2)
    (stF : CropperUIState)
    (hw : stF.boxWidth = tw) (hh : stF.boxHeight = th)
    (hox : stF.boxOffsetX = 0) (hoy : stF.boxOffsetY = 0)
    (hscF : stF.scale = S) (hpx : stF.panX = Px * S) (hpy : stF.panY = Py * S)
    (hrot : stF.smoothRotation = st.smoothRotation)
    (hcw : stF.currentImgWidth = st.currentImgWidth)
    (hch : stF.currentImgHeight = st.currentImgHeight) :
    coverageWithin 0 co si stF := by
  have key : ∀ p1 ∈ minScaleCorners tw th,
      |(rotPt (co st.smoothRotation) (si st.smoothRotation) p1).x - Px * S| ≤
        st.currentImgWidth / 2 * S ∧
      |(rotPt (co st.smoothRotation) (si st.smoothRotation) p1).y - Py * S| ≤
        st.currentImgHeight / 2 * S := by
    intro p1 hp1
    have h1 : minScaleReqX co si st Px p1 ≤ S :=
      le_trans (foldl_maxfg_ge_f _ _ _ _ _ hp1) hS
    have h2 : minScaleReqY co si st Py p1 ≤ S :=
      le_trans (foldl_maxfg_ge_g _ _ _ _ _ hp1) hS
    exact ⟨axis_min_scale _ _ _ _ hPx hSpos h1, axis_min_scale _ _ _ _ hPy hSpos h2⟩
  intro q hq
  unfold rotatedCorners getBoxCorners at hq
  rw [hw, hh, hox, hoy, hrot] at hq
  rw [hpx, hpy, hscF, hcw, hch]
  obtain ⟨p0, hp0, rfl⟩ := List.mem_map.1 hq
  rw [add_zero, add_zero]
  fin_cases hp0
  · have hk := key ⟨-tw / 2, -th / 2⟩ (by simp [minScaleCorners])
    constructor
    · rw [show (rotPt (co st.smoothRotation) (si st.smoothRotation)
          ⟨0 - tw / 2, 0 - th / 2⟩).x =
        (rotPt (co st.smoothRotation) (si st.smoothRotation) ⟨-tw / 2, -th / 2⟩).x
        from by simp [rotPt]; try ring]
      exact hk.1
    · rw [show (rotPt (co st.smoothRotation) (si st.smoothRotation)
          ⟨0 - tw / 2, 0 - th / 2⟩).y =
        (rotPt (co st.smoothRotation) (si st.smoothRotation) ⟨-tw / 2, -th / 2⟩).y
        from by simp [rotPt]; try ring]
      exact hk.2
  · have hk := key ⟨tw / 2, -th / 2⟩ (by simp [minScaleCorners])
    constructor
    · rw [show (rotPt (co st.smoothRotation) (si st.smoothRotation)
          ⟨0 + tw / 2, 0 - th / 2⟩).x =
        (rotPt (co st.smoothRotation) (si st.smoothRotation) ⟨tw / 2, -th / 2⟩).x
        from by simp [rotPt]; try ring]
      exact hk.1
    · rw [show (rotPt (co st.smoothRotation) (si st.smoothRotation)
          ⟨0 + tw / 2, 0 - th / 2⟩).y =
        (rotPt (co st.smoothRotation) (si st.smoothRotation) ⟨tw / 2, -th / 2⟩).y
        from by simp [rotPt]; try ring]
      exact hk.2
  · have hk := key ⟨tw / 2, th / 2⟩ (by simp [minScaleCorners])
    constructor
    · rw [show (rotPt (co st.smoothRotation) (si st.smoothRotation)
          ⟨0 + tw / 2, 0 + th / 2⟩).x =
        (rotPt (co st.smoothRotation) (si st.smoothRotation) ⟨tw / 2, th / 2⟩).x
        from by simp [rotPt]; try ring]
      exact hk.1
    · rw [show (rotPt (co st.smoothRotation) (si st.smoothRotation)
          ⟨0 + tw / 2, 0 + th / 2⟩).y =
        (rotPt (co st.smoothRotation) (si st.smoothRotation) ⟨tw / 2, th / 2⟩).y
        from by simp [rotPt]; try ring]
      exact hk.2
  · have hk := key ⟨-tw / 2, th / 2⟩ (by simp [minScaleCorners])
    constructor
    · rw [show (rotPt (co st.smoothRotation) (si st.smoothRotation)
          ⟨0 - tw / 2, 0 + th / 2⟩).x =
        (rotPt (co st.smoothRotation) (si st.smoothRotation) ⟨-tw / 2, th / 2⟩).x
        from by simp [rotPt]; try ring]
      exact hk.1
    · rw [show (rotPt (co st.smoothRotation) (si st.smoothRotation)
          ⟨0 - tw / 2, 0 + th / 2⟩).y =
        (rotPt (co st.smoothRotation) (si st.smoothRotation) ⟨-tw / 2, th / 2⟩).y
        from by simp [rotPt]; try ring]
      exact hk.2

/-- C4.  For a non-animating state with positive box, scale and a positive
(or absent) locked ratio, whose box center lies strictly inside the image:
the end-of-animation scale of `animateReset` is exactly
`max(naiveScale, minimumCoverageScale)` — `naiveScale = scale·(targetBoxW /
boxWidth)`, `minimumCoverageScale = getMinScaleForBox` over the four target
box corners and both axes — and consequently the final state's box is fully
covered by the image. -/
theorem animateReset_scale_coverage (co si : ℚ → ℚ) (st : CropperUIState)
    (hanim : st.isAnimating = false)
    (hbw : 0 < st.boxWidth) (hbh : 0 < st.boxHeight) (hsc : 0 < st.scale)
    (haspect : st.aspectRatioVal = none ∨
      ∃ r, st.aspectRatioVal = some r ∧ 0 < r)
    (hcx : |st.panX - boxLocalXOf co si st| < st.currentImgWidth / 2 * st.scale)
    (hcy : |st.panY - boxLocalYOf co si st| < st.currentImgHeight / 2 * st.scale) :
    (animateReset co si st).scale =
      max (st.scale * (targetBoxWOf st / st.boxWidth))
        (getMinScaleForBox co si (targetBoxWOf st) (targetBoxHOf st)
          (relPanXOf co si st) (relPanYOf co si st) st) ∧
    coverageWithin 0 co si (animateReset co si st) := by
  have hE := animateReset_eq co si st hanim
  obtain ⟨htw, hth⟩ := targetBox_pos st hbw hbh haspect
  have hs_eq : (animateResetEnd co si st).s =
      max (st.scale * (targetBoxWOf st / st.boxWidth))
        (getMinScaleForBox co si (targetBoxWOf st) (targetBoxHOf st)
          (relPanXOf co si st) (relPanYOf co si st) st) := rfl
  have hnaive : 0 < st.scale * (targetBoxWOf st / st.boxWidth) :=
    mul_pos hsc (div_pos htw hbw)
  have hSpos : 0 < (animateResetEnd co si st).s := by
    rw [hs_eq]; exact lt_of_lt_of_le hnaive (le_max_left _ _)
  have hPx : |relPanXOf co si st| < st.currentImgWidth / 2 := by
    unfold relPanXOf
    rw [abs_div, abs_of_pos hsc, div_lt_iff₀ hsc]
    exact hcx
  have hPy : |relPanYOf co si st| < st.currentImgHeight / 2 := by
    unfold relPanYOf
    rw [abs_div, abs_of_pos hsc, div_lt_iff₀ hsc]
    exact hcy
  constructor
  · rw [hE]; exact hs_eq
  · exact coverage_of_minScale co si st (targetBoxWOf st) (targetBoxHOf st)
      (relPanXOf co si st) (relPanYOf co si st) (animateResetEnd co si st).s
      (by rw [hs_eq]; exact le_max_right _ _) hSpos hPx hPy
      (animateReset co si st)
      (by rw [hE]; try rfl) (by rw [hE]; try rfl) (by rw [hE]; try rfl) (by rw [hE]; try rfl)
      (by rw [hE]; try rfl) (by rw [hE]; try rfl) (by rw [hE]; try rfl) (by rw [hE]; try rfl)
      (by rw [hE]; try rfl) (by rw [hE]; try rfl)

set_option maxRecDepth 200000 in
/-- Witness for C4: resetting the fresh 1100×1100 crop state after a small pan
satisfies the hypotheses and the conclusion at rotation 0. -/
theorem animateReset_scale_coverage_witness :
    ((panOp cosDeg0 sinDeg0 7 2 (cropInit 1100 1100)).isAnimating = false) ∧
    (animateReset cosDeg0 sinDeg0 (panOp cosDeg0 sinDeg0 7 2 (cropInit 1100 1100))).scale =
      max ((panOp cosDeg0 sinDeg0 7 2 (cropInit 1100 1100)).scale *
          (targetBoxWOf (panOp cosDeg0 sinDeg0 7 2 (cropInit 1100 1100)) /
            (panOp cosDeg0 sinDeg0 7 2 (cropInit 1100 1100)).boxWidth))
        (getMinScaleForBox cosDeg0 sinDeg0
          (targetBoxWOf (panOp cosDeg0 sinDeg0 7 2 (cropInit 1100 1100)))
          (targetBoxHOf (panOp cosDeg0 sinDeg0 7 2 (cropInit 1100 1100)))
          (relPanXOf cosDeg0 sinDeg0 (panOp cosDeg0 sinDeg0 7 2 (cropInit 1100 1100)))
          (relPanYOf cosDeg0 sinDeg0 (panOp cosDeg0 sinDeg0 7 2 (cropInit 1100 1100)))
          (panOp cosDeg0 sinDeg0 7 2 (cropInit 1100 1100))) ∧
    coverageWithin 0 cosDeg0 sinDeg0
      (animateReset cosDeg0 sinDeg0 (panOp cosDeg0 sinDeg0 7 2 (cropInit 1100 1100))) := by
  refine ⟨by with_unfolding_all decide, ?_⟩
  exact animateReset_scale_coverage cosDeg0 sinDeg0
    (panOp cosDeg0 sinDeg0 7 2 (cropInit 1100 1100))
    (by with_unfolding_all decide) (by with_unfolding_all decide)
    (by with_unfolding_all decide) (by with_unfolding_all decide)
    (Or.inl (by with_unfolding_all decide))
    (by with_unfolding_all decide) (by with_unfolding_all decide)

/-! ### Quadrant round-trip (C7) -/

/-- A state in the form `resetToFit` leaves behind: not animating, box
offsets zero, canonical 550px viewport box, locked ratio absent or equal
to the box aspect, positive dimensions and scale, and image coverage. -/
def ResetForm (co si : ℚ → ℚ) (st : CropperUIState) : Prop :=
  st.isAnimating = false ∧ 0 < st.scale ∧ 0 < st.boxWidth ∧ 0 < st.boxHeight ∧
  st.boxOffsetX = 0 ∧ st.boxOffsetY = 0 ∧
  (st.aspectRatioVal = none ∨ st.aspectRatioVal = some (st.boxWidth / st.boxHeight)) ∧
  ((st.boxWidth / st.boxHeight > 1 ∧ st.boxWidth = 550) ∨
    (st.boxWidth / st.boxHeight ≤ 1 ∧ st.boxHeight = 550)) ∧
  coverageWithin 0 co si st

/-- On a canonical-box state the reset target box is the current box. -/
lemma targetBox_of_canonical (st : CropperUIState)
    (hbw : 0 < st.boxWidth) (hbh : 0 < st.boxHeight)
    (hasp : st.aspectRatioVal = none ∨
      st.aspectRatioVal = some (st.boxWidth / st.boxHeight))
    (hcanon : (st.boxWidth / st.boxHeight > 1 ∧ st.boxWidth = 550) ∨
      (st.boxWidth / st.boxHeight ≤ 1 ∧ st.boxHeight = 550)) :
    targetBoxWOf st = st.boxWidth ∧ targetBoxHOf st = st.boxHeight := by
  have hbwne : st.boxWidth ≠ 0 := ne_of_gt hbw
  have hbhne : st.boxHeight ≠ 0 := ne_of_gt hbh
  have hA : targetAspectOf st = st.boxWidth / st.boxHeight := by
    unfold targetAspectOf
    rcases hasp with h | h <;> rw [h]
  unfold targetBoxWOf targetBoxHOf
  rw [hA]
  rcases hcanon with ⟨hgt, hw⟩ | ⟨hle, hh⟩
  · rw [if_pos hgt, if_pos hgt, hw]
    constructor
    · rfl
    · rw [← hw]
      field_simp
  · rw [if_neg (not_lt.2 hle), if_neg (not_lt.2 hle), hh]
    constructor
    · rw [← hh]
      field_simp
      try ring
    · rfl

/-- Coverage only reads the geometric fields; transport it across two
states that agree on them. -/
lemma coverageWithin_congr (tol : ℚ) (co si : ℚ → ℚ)
    (st1 st2 : CropperUIState)
    (hbw : st2.boxWidth = st1.boxWidth) (hbh : st2.boxHeight = st1.boxHeight)
    (hox : st2.boxOffsetX = st1.boxOffsetX) (hoy : st2.boxOffsetY = st1.boxOffsetY)
    (hrot : st2.smoothRotation = st1.smoothRotation)
    (hpx : st2.panX = st1.panX) (hpy : st2.panY = st1.panY)
    (hcw : st2.currentImgWidth = st1.currentImgWidth)
    (hch : st2.currentImgHeight = st1.currentImgHeight)
    (hsc : st2.scale = st1.scale)
    (h : coverageWithin tol co si st1) : coverageWithin tol co si st2 := by
  have hrc : rotatedCorners co si st2 = rotatedCorners co si st1 := by
    unfold rotatedCorners getBoxCorners
    rw [hbw, hbh, hox, hoy, hrot]
  intro q hq
  rw [hrc] at hq
  rw [hpx, hpy, hcw, hch, hsc]
  exact h q hq

/-- The coverage bounds transported onto the `minScaleCorners` list of the
current (offset-free) box. -/
lemma coverage_minScaleCorners (co si : ℚ → ℚ) (st : CropperUIState)
    (hox : st.boxOffsetX = 0) (hoy : st.boxOffsetY = 0)
    (hcov : coverageWithin 0 co si st) :
    ∀ p ∈ minScaleCorners st.boxWidth st.boxHeight,
      |(rotPt (co st.smoothRotation) (si st.smoothRotation) p).x - st.panX| ≤
        st.currentImgWidth / 2 * st.scale ∧
      |(rotPt (co st.smoothRotation) (si st.smoothRotation) p).y - st.panY| ≤
        st.currentImgHeight / 2 * st.scale := by
  have hmem : ∀ p0 ∈ getBoxCorners st,
      rotPt (co st.smoothRotation) (si st.smoothRotation) p0 ∈ rotatedCorners co si st :=
    fun p0 hp0 => List.mem_map.2 ⟨p0, hp0, rfl⟩
  intro p hp
  fin_cases hp
  · have h0 := hcov _ (hmem ⟨st.boxOffsetX - st.boxWidth / 2, st.boxOffsetY - st.boxHeight / 2⟩
      (by simp [getBoxCorners]))
    rw [add_zero, add_zero] at h0
    constructor
    · rw [show (rotPt (co st.smoothRotation) (si st.smoothRotation)
          ⟨-st.boxWidth / 2, -st.boxHeight / 2⟩).x =
        (rotPt (co st.smoothRotation) (si st.smoothRotation)
          ⟨st.boxOffsetX - st.boxWidth / 2, st.boxOffsetY - st.boxHeight / 2⟩).x
        from by simp [rotPt, hox, hoy]; try ring]
      exact h0.1
    · rw [show (rotPt (co st.smoothRotation) (si st.smoothRotation)
          ⟨-st.boxWidth / 2, -st.boxHeight / 2⟩).y =
        (rotPt (co st.smoothRotation) (si st.smoothRotation)
          ⟨st.boxOffsetX - st.boxWidth / 2, st.boxOffsetY - st.boxHeight / 2⟩).y
        from by simp [rotPt, hox, hoy]; try ring]
      exact h0.2
  · have h0 := hcov _ (hmem ⟨st.boxOffsetX + st.boxWidth / 2, st.boxOffsetY - st.boxHeight / 2⟩
      (by simp [getBoxCorners]))
    rw [add_zero, add_zero] at h0
    constructor
    · rw [show (rotPt (co st.smoothRotation) (si st.smoothRotation)
          ⟨st.boxWidth / 2, -st.boxHeight / 2⟩).x =
        (rotPt (co st.smoothRotation) (si st.smoothRotation)
          ⟨st.boxOffsetX + st.boxWidth / 2, st.boxOffsetY - st.boxHeight / 2⟩).x
        from by simp [rotPt, hox, hoy]; try ring]
      exact h0.1
    · rw [show (rotPt (co st.smoothRotation) (si st.smoothRotation)
          ⟨st.boxWidth / 2, -st.boxHeight / 2⟩).y =
        (rotPt (co st.smoothRotation) (si st.smoothRotation)
          ⟨st.boxOffsetX + st.boxWidth / 2, st.boxOffsetY - st.boxHeight / 2⟩).y
        from by simp [rotPt, hox, hoy]; try ring]
      exact h0.2
  · have h0 := hcov _ (hmem ⟨st.boxOffsetX + st.boxWidth / 2, st.boxOffsetY + st.boxHeight / 2⟩
      (by simp [getBoxCorners]))
    rw [add_zero, add_zero] at h0
    constructor
    · rw [show (rotPt (co st.smoothRotation) (si st.smoothRotation)
          ⟨st.boxWidth / 2, st.boxHeight / 2⟩).x =
        (rotPt (co st.smoothRotation) (si st.smoothRotation)
          ⟨st.boxOffsetX + st.boxWidth / 2, st.boxOffsetY + st.boxHeight / 2⟩).x
        from by simp [rotPt, hox, hoy]; try ring]
      exact h0.1
    · rw [show (rotPt (co st.smoothRotation) (si st.smoothRotation)
          ⟨st.boxWidth / 2, st.boxHeight / 2⟩).y =
        (rotPt (co st.smoothRotation) (si st.smoothRotation)
          ⟨st.boxOffsetX + st.boxWidth / 2, st.boxOffsetY + st.boxHeight / 2⟩).y
        from by simp [rotPt, hox, hoy]; try ring]
      exact h0.2
  · have h0 := hcov _ (hmem ⟨st.boxOffsetX - st.boxWidth / 2, st.boxOffsetY + st.boxHeight / 2⟩
      (by simp [getBoxCorners]))
    rw [add_zero, add_zero] at h0
    constructor
    · rw [show (rotPt (co st.smoothRotation) (si st.smoothRotation)
          ⟨-st.boxWidth / 2, st.boxHeight / 2⟩).x =
        (rotPt (co st.smoothRotation) (si st.smoothRotation)
          ⟨st.boxOffsetX - st.boxWidth / 2, st.boxOffsetY + st.boxHeight / 2⟩).x
        from by simp [rotPt, hox, hoy]; try ring]
      exact h0.1
    · rw [show (rotPt (co st.smoothRotation) (si st.smoothRotation)
          ⟨-st.boxWidth / 2, st.boxHeight / 2⟩).y =
        (rotPt (co st.smoothRotation) (si st.smoothRotation)
          ⟨st.boxOffsetX - st.boxWidth / 2, st.boxOffsetY + st.boxHeight / 2⟩).y
        from by simp [rotPt, hox, hoy]; try ring]
      exact h0.2

/-- On a covered, offset-free state the analytic minimum scale for the
current box does not exceed the current scale. -/
lemma minScale_le_scale (co si : ℚ → ℚ) (st : CropperUIState)
    (hsc : 0 < st.scale) (hox : st.boxOffsetX = 0) (hoy : st.boxOffsetY = 0)
    (hcov : coverageWithin 0 co si st) :
    getMinScaleForBox co si st.boxWidth st.boxHeight
      (relPanXOf co si st) (relPanYOf co si st) st ≤ st.scale := by
  have hscne : st.scale ≠ 0 := ne_of_gt hsc
  have hblx : boxLocalXOf co si st = 0 := by
    unfold boxLocalXOf; rw [hox, hoy]; ring
  have hbly : boxLocalYOf co si st = 0 := by
    unfold boxLocalYOf; rw [hox, hoy]; ring
  have hPx : relPanXOf co si st * st.scale = st.panX := by
    unfold relPanXOf; rw [hblx]; field_simp
  have hPy : relPanYOf co si st * st.scale = st.panY := by
    unfold relPanYOf; rw [hbly]; field_simp
  have hcov2 := coverage_minScaleCorners co si st hox hoy hcov
  apply foldl_maxfg_le _ _ _ 0 st.scale hsc.le
  intro p hp
  have h1 := (hcov2 p hp).1
  have h2 := (hcov2 p hp).2
  rw [← hPx] at h1
  rw [← hPy] at h2
  exact ⟨axis_req_le _ _ _ _ hsc h1, axis_req_le _ _ _ _ hsc h2⟩

/-- On a reset-form state, `animateReset` leaves every claimed field where
it is: the target box is the current box, the naive scale is the current
scale, and the coverage bound keeps the minimum scale below it. -/
lemma animateReset_id_fields (co si : ℚ → ℚ) (st : CropperUIState)
    (h : ResetForm co si st) :
    (animateReset co si st).scale = st.scale ∧
    (animateReset co si st).boxWidth = st.boxWidth ∧
    (animateReset co si st).boxHeight = st.boxHeight ∧
    (animateReset co si st).boxOffsetX = st.boxOffsetX ∧
    (animateReset co si st).boxOffsetY = st.boxOffsetY ∧
    (animateReset co si st).panX = st.panX ∧
    (animateReset co si st).panY = st.panY := by
  obtain ⟨hanim, hsc, hbw, hbh, hox, hoy, hasp, hcanon, hcov⟩ := h
  obtain ⟨htw, hth⟩ := targetBox_of_canonical st hbw hbh hasp hcanon
  have hE := animateReset_eq co si st hanim
  have hmin : getMinScaleForBox co si (targetBoxWOf st) (targetBoxHOf st)
      (relPanXOf co si st) (relPanYOf co si st) st ≤ st.scale := by
    rw [htw, hth]
    exact minScale_le_scale co si st hsc hox hoy hcov
  have hnaive : st.scale * (targetBoxWOf st / st.boxWidth) = st.scale := by
    rw [htw, div_self (ne_of_gt hbw), mul_one]
  have hs : (animateResetEnd co si st).s = st.scale := by
    show max (st.scale * (targetBoxWOf st / st.boxWidth)) _ = st.scale
    rw [hnaive]
    exact max_eq_left hmin
  have hscne : st.scale ≠ 0 := ne_of_gt hsc
  have hblx : boxLocalXOf co si st = 0 := by
    unfold boxLocalXOf; rw [hox, hoy]; ring
  have hbly : boxLocalYOf co si st = 0 := by
    unfold boxLocalYOf; rw [hox, hoy]; ring
  have hpx : (animateResetEnd co si st).px = st.panX := by
    show relPanXOf co si st * (animateResetEnd co si st).s = st.panX
    rw [hs]
    unfold relPanXOf
    rw [hblx]
    field_simp
  have hpy : (animateResetEnd co si st).py = st.panY := by
    show relPanYOf co si st * (animateResetEnd co si st).s = st.panY
    rw [hs]
    unfold relPanYOf
    rw [hbly]
    field_simp
  refine ⟨?_, ?_, ?_, ?_, ?_, ?_, ?_⟩ <;> rw [hE]
  · exact hs
  · exact htw
  · exact hth
  · exact hox.symm
  · exact hoy.symm
  · exact hpx
  · exact hpy

/-- `animateReset` keeps a reset-form state in reset form. -/
lemma animateReset_resetForm (co si : ℚ → ℚ) (st : CropperUIState)
    (h : ResetForm co si st) : ResetForm co si (animateReset co si st) := by
  obtain ⟨hf1, hf2, hf3, hf4, hf5, hf6, hf7⟩ := animateReset_id_fields co si st h
  obtain ⟨hanim, hsc, hbw, hbh, hox, hoy, hasp, hcanon, hcov⟩ := h
  have hE := animateReset_eq co si st hanim
  have hrot : (animateReset co si st).smoothRotation = st.smoothRotation := by rw [hE]
  have hcw : (animateReset co si st).currentImgWidth = st.currentImgWidth := by rw [hE]
  have hch : (animateReset co si st).currentImgHeight = st.currentImgHeight := by rw [hE]
  have hav : (animateReset co si st).aspectRatioVal = st.aspectRatioVal := by rw [hE]
  refine ⟨by rw [hE], by rw [hf1]; exact hsc, by rw [hf2]; exact hbw,
    by rw [hf3]; exact hbh, by rw [hf4]; exact hox, by rw [hf5]; exact hoy,
    ?_, by rw [hf2, hf3]; exact hcanon,
    coverageWithin_congr 0 co si st _ hf2 hf3 hf4 hf5 hrot hf6 hf7 hcw hch hf1 hcov⟩
  rcases hasp with hnone | hsome
  · left; rw [hav]; exact hnone
  · right; rw [hav, hsome, hf2, hf3]

/-- The `+1` quadrant rotation preserves coverage: the rotated state's
corners, pan, and image extents are the 90°-rotation of the old ones. -/
lemma rotateBaseState_coverage (co si : ℚ → ℚ) (st : CropperUIState)
    (hcov : coverageWithin 0 co si st) :
    coverageWithin 0 co si (rotateBaseState 1 st) := by
  have hmem : ∀ p1 ∈ getBoxCorners st,
      rotPt (co st.smoothRotation) (si st.smoothRotation) p1 ∈ rotatedCorners co si st :=
    fun p1 hp1 => List.mem_map.2 ⟨p1, hp1, rfl⟩
  intro q hq
  have ebw : (rotateBaseState 1 st).boxWidth = st.boxHeight := rfl
  have ebh : (rotateBaseState 1 st).boxHeight = st.boxWidth := rfl
  have eox : (rotateBaseState 1 st).boxOffsetX = -st.boxOffsetY := rfl
  have eoy : (rotateBaseState 1 st).boxOffsetY = st.boxOffsetX := rfl
  have epx : (rotateBaseState 1 st).panX = -st.panY := rfl
  have epy : (rotateBaseState 1 st).panY = st.panX := rfl
  have erot : (rotateBaseState 1 st).smoothRotation = st.smoothRotation := rfl
  have ecw : (rotateBaseState 1 st).currentImgWidth = st.currentImgHeight := rfl
  have ech : (rotateBaseState 1 st).currentImgHeight = st.currentImgWidth := rfl
  have esc : (rotateBaseState 1 st).scale = st.scale := rfl
  unfold rotatedCorners getBoxCorners at hq
  rw [ebw, ebh, eox, eoy, erot] at hq
  rw [epx, epy, ecw, ech, esc, add_zero, add_zero]
  obtain ⟨p0, hp0, rfl⟩ := List.mem_map.1 hq
  fin_cases hp0
  · have h0 := hcov _ (hmem ⟨st.boxOffsetX - st.boxWidth / 2, st.boxOffsetY + st.boxHeight / 2⟩
      (by simp [getBoxCorners]))
    rw [add_zero, add_zero] at h0
    constructor
    · rw [show (rotPt (co st.smoothRotation) (si st.smoothRotation)
          ⟨-st.boxOffsetY - st.boxHeight / 2, st.boxOffsetX - st.boxWidth / 2⟩).x - -st.panY =
        -((rotPt (co st.smoothRotation) (si st.smoothRotation)
          ⟨st.boxOffsetX - st.boxWidth / 2, st.boxOffsetY + st.boxHeight / 2⟩).y - st.panY)
        from by simp [rotPt]; ring, abs_neg]
      exact h0.2
    · rw [show (rotPt (co st.smoothRotation) (si st.smoothRotation)
          ⟨-st.boxOffsetY - st.boxHeight / 2, st.boxOffsetX - st.boxWidth / 2⟩).y - st.panX =
        (rotPt (co st.smoothRotation) (si st.smoothRotation)
          ⟨st.boxOffsetX - st.boxWidth / 2, st.boxOffsetY + st.boxHeight / 2⟩).x - st.panX
        from by simp [rotPt]; ring]
      exact h0.1
  · have h0 := hcov _ (hmem ⟨st.boxOffsetX - st.boxWidth / 2, st.boxOffsetY - st.boxHeight / 2⟩
      (by simp [getBoxCorners]))
    rw [add_zero, add_zero] at h0
    constructor
    · rw [show (rotPt (co st.smoothRotation) (si st.smoothRotation)
          ⟨-st.boxOffsetY + st.boxHeight / 2, st.boxOffsetX - st.boxWidth / 2⟩).x - -st.panY =
        -((rotPt (co st.smoothRotation) (si st.smoothRotation)
          ⟨st.boxOffsetX - st.boxWidth / 2, st.boxOffsetY - st.boxHeight / 2⟩).y - st.panY)
        from by simp [rotPt]; ring, abs_neg]
      exact h0.2
    · rw [show (rotPt (co st.smoothRotation) (si st.smoothRotation)
          ⟨-st.boxOffsetY + st.boxHeight / 2, st.boxOffsetX - st.boxWidth / 2⟩).y - st.panX =
        (rotPt (co st.smoothRotation) (si st.smoothRotation)
          ⟨st.boxOffsetX - st.boxWidth / 2, st.boxOffsetY - st.boxHeight / 2⟩).x - st.panX
        from by simp [rotPt]; ring]
      exact h0.1
  · have h0 := hcov _ (hmem ⟨st.boxOffsetX + st.boxWidth / 2, st.boxOffsetY - st.boxHeight / 2⟩
      (by simp [getBoxCorners]))
    rw [add_zero, add_zero] at h0
    constructor
    · rw [show (rotPt (co st.smoothRotation) (si st.smoothRotation)
          ⟨-st.boxOffsetY + st.boxHeight / 2, st.boxOffsetX + st.boxWidth / 2⟩).x - -st.panY =
        -((rotPt (co st.smoothRotation) (si st.smoothRotation)
          ⟨st.boxOffsetX + st.boxWidth / 2, st.boxOffsetY - st.boxHeight / 2⟩).y - st.panY)
        from by simp [rotPt]; ring, abs_neg]
      exact h0.2
    · rw [show (rotPt (co st.smoothRotation) (si st.smoothRotation)
          ⟨-st.boxOffsetY + st.boxHeight / 2, st.boxOffsetX + st.boxWidth / 2⟩).y - st.panX =
        (rotPt (co st.smoothRotation) (si st.smoothRotation)
          ⟨st.boxOffsetX + st.boxWidth / 2, st.boxOffsetY - st.boxHeight / 2⟩).x - st.panX
        from by simp [rotPt]; ring]
      exact h0.1
  · have h0 := hcov _ (hmem ⟨st.boxOffsetX + st.boxWidth / 2, st.boxOffsetY + st.boxHeight / 2⟩
      (by simp [getBoxCorners]))
    rw [add_zero, add_zero] at h0
    constructor
    · rw [show (rotPt (co st.smoothRotation) (si st.smoothRotation)
          ⟨-st.boxOffsetY - st.boxHeight / 2, st.boxOffsetX + st.boxWidth / 2⟩).x - -st.panY =
        -((rotPt (co st.smoothRotation) (si st.smoothRotation)
          ⟨st.boxOffsetX + st.boxWidth / 2, st.boxOffsetY + st.boxHeight / 2⟩).y - st.panY)
        from by simp [rotPt]; ring, abs_neg]
      exact h0.2
    · rw [show (rotPt (co st.smoothRotation) (si st.smoothRotation)
          ⟨-st.boxOffsetY - st.boxHeight / 2, st.boxOffsetX + st.boxWidth / 2⟩).y - st.panX =
        (rotPt (co st.smoothRotation) (si st.smoothRotation)
          ⟨st.boxOffsetX + st.boxWidth / 2, st.boxOffsetY + st.boxHeight / 2⟩).x - st.panX
        from by simp [rotPt]; ring]
      exact h0.1

/-- The `+1` quadrant rotation keeps a reset-form state in reset form. -/
lemma rotateBaseState_resetForm (co si : ℚ → ℚ) (st : CropperUIState)
    (h : ResetForm co si st) : ResetForm co si (rotateBaseState 1 st) := by
  obtain ⟨hanim, hsc, hbw, hbh, hox, hoy, hasp, hcanon, hcov⟩ := h
  have hbwne : st.boxWidth ≠ 0 := ne_of_gt hbw
  have hbhne : st.boxHeight ≠ 0 := ne_of_gt hbh
  refine ⟨hanim, hsc, hbh, hbw, ?_, ?_, ?_, ?_, rotateBaseState_coverage co si st hcov⟩
  · show -st.boxOffsetY = 0
    rw [hoy]; ring
  · exact hox
  · rcases hasp with hnone | hsome
    · left
      show st.aspectRatioVal.map _ = none
      rw [hnone]; rfl
    · right
      show st.aspectRatioVal.map _ = some ((rotateBaseState 1 st).boxWidth / (rotateBaseState 1 st).boxHeight)
      rw [hsome]
      show some (1 / (st.boxWidth / st.boxHeight)) = some (st.boxHeight / st.boxWidth)
      rw [one_div_div]
  · show (st.boxHeight / st.boxWidth > 1 ∧ st.boxHeight = 550) ∨
      (st.boxHeight / st.boxWidth ≤ 1 ∧ st.boxWidth = 550)
    rcases hcanon with ⟨hgt, hw⟩ | ⟨hle, hh⟩
    · right
      have hlt : st.boxHeight < st.boxWidth := by
        have := (one_lt_div hbh).1 hgt
        exact this
      exact ⟨le_of_lt ((div_lt_one hbw).2 hlt), hw⟩
    · by_cases hgt2 : st.boxHeight / st.boxWidth > 1
      · left; exact ⟨hgt2, hh⟩
      · right
        have h1 : st.boxHeight ≤ st.boxWidth := (div_le_one hbw).1 (not_lt.1 hgt2)
        have h2 : st.boxWidth ≤ st.boxHeight := (div_le_one hbh).1 hle
        exact ⟨not_lt.1 hgt2, le_antisymm h2 h1 ▸ hh⟩

/-- One full `handleRotateBase(+1)` step from a reset-form state: the
final `animateReset` is the identity on the claimed fields, so the step
acts as the pure quadrant rotation and stays in reset form. -/
lemma handleRotateBase_step (co si : ℚ → ℚ) (st : CropperUIState)
    (h : ResetForm co si st) :
    ResetForm co si (handleRotateBase co si 1 st) ∧
    (handleRotateBase co si 1 st).baseRotationIndex =
      nextRotationIndex 1 st.baseRotationIndex ∧
    (handleRotateBase co si 1 st).boxWidth = st.boxHeight ∧
    (handleRotateBase co si 1 st).boxHeight = st.boxWidth ∧
    (handleRotateBase co si 1 st).boxOffsetX = -st.boxOffsetY ∧
    (handleRotateBase co si 1 st).boxOffsetY = st.boxOffsetX ∧
    (handleRotateBase co si 1 st).panX = -st.panY ∧
    (handleRotateBase co si 1 st).panY = st.panX ∧
    (handleRotateBase co si 1 st).flipX = st.flipX ∧
    (handleRotateBase co si 1 st).flipY = st.flipY := by
  have hRF : ResetForm co si (rotateBaseState 1 st) :=
    rotateBaseState_resetForm co si st h
  obtain ⟨hf1, hf2, hf3, hf4, hf5, hf6, hf7⟩ :=
    animateReset_id_fields co si (rotateBaseState 1 st) hRF
  have hE := animateReset_eq co si (rotateBaseState 1 st) hRF.1
  refine ⟨animateReset_resetForm co si (rotateBaseState 1 st) hRF,
    ?_, hf2.trans rfl, hf3.trans rfl, hf4.trans rfl, hf5.trans rfl,
    hf6.trans rfl, hf7.trans rfl, ?_, ?_⟩
  · show (animateReset co si (rotateBaseState 1 st)).baseRotationIndex = _
    rw [hE]
    rfl
  · show (animateReset co si (rotateBaseState 1 st)).flipX = _
    rw [hE]
    rfl
  · show (animateReset co si (rotateBaseState 1 st)).flipY = _
    rw [hE]
    rfl

/-- Four `+1` index steps return a quadrant index to itself. -/
lemma nextRotationIndex_four (i : ℤ)
    (h : i = 0 ∨ i = 1 ∨ i = 2 ∨ i = 3) :
    nextRotationIndex 1 (nextRotationIndex 1 (nextRotationIndex 1 (nextRotationIndex 1 i))) = i := by
  rcases h with rfl | rfl | rfl | rfl <;> rfl

/-- C7 (amended).  From a reset-form state (the state `resetToFit` leaves:
offsets zero, canonical viewport box, matching or absent locked ratio,
positive dimensions and scale, image covering the box, not animating) with
`baseRotationIndex` in `0..3`, applying `rotateBase(+1)` four times returns
`baseRotationIndex`, the box geometry, the pan, and the flips exactly to
their pre-rotation values. -/
theorem rotateBase_four_roundTrip (co si : ℚ → ℚ) (st : CropperUIState)
    (h : ResetForm co si st)
    (hidx : st.baseRotationIndex = 0 ∨ st.baseRotationIndex = 1 ∨
      st.baseRotationIndex = 2 ∨ st.baseRotationIndex = 3) :
    (handleRotateBase co si 1 (handleRotateBase co si 1 (handleRotateBase co si 1
      (handleRotateBase co si 1 st)))).baseRotationIndex = st.baseRotationIndex ∧
    (handleRotateBase co si 1 (handleRotateBase co si 1 (handleRotateBase co si 1
      (handleRotateBase co si 1 st)))).boxWidth = st.boxWidth ∧
    (handleRotateBase co si 1 (handleRotateBase co si 1 (handleRotateBase co si 1
      (handleRotateBase co si 1 st)))).boxHeight = st.boxHeight ∧
    (handleRotateBase co si 1 (handleRotateBase co si 1 (handleRotateBase co si 1
      (handleRotateBase co si 1 st)))).boxOffsetX = st.boxOffsetX ∧
    (handleRotateBase co si 1 (handleRotateBase co si 1 (handleRotateBase co si 1
      (handleRotateBase co si 1 st)))).boxOffsetY = st.boxOffsetY ∧
    (handleRotateBase co si 1 (handleRotateBase co si 1 (handleRotateBase co si 1
      (handleRotateBase co si 1 st)))).panX = st.panX ∧
    (handleRotateBase co si 1 (handleRotateBase co si 1 (handleRotateBase co si 1
      (handleRotateBase co si 1 st)))).panY = st.panY ∧
    (handleRotateBase co si 1 (handleRotateBase co si 1 (handleRotateBase co si 1
      (handleRotateBase co si 1 st)))).flipX = st.flipX ∧
    (handleRotateBase co si 1 (handleRotateBase co si 1 (handleRotateBase co si 1
      (handleRotateBase co si 1 st)))).flipY = st.flipY := by
  obtain ⟨hRF1, hI1, hW1, hH1, hOX1, hOY1, hPX1, hPY1, hFX1, hFY1⟩ :=
    handleRotateBase_step co si st h
  obtain ⟨hRF2, hI2, hW2, hH2, hOX2, hOY2, hPX2, hPY2, hFX2, hFY2⟩ :=
    handleRotateBase_step co si _ hRF1
  obtain ⟨hRF3, hI3, hW3, hH3, hOX3, hOY3, hPX3, hPY3, hFX3, hFY3⟩ :=
    handleRotateBase_step co si _ hRF2
  obtain ⟨hRF4, hI4, hW4, hH4, hOX4, hOY4, hPX4, hPY4, hFX4, hFY4⟩ :=
    handleRotateBase_step co si _ hRF3
  refine ⟨?_, ?_, ?_, ?_, ?_, ?_, ?_, ?_, ?_⟩
  · rw [hI4, hI3, hI2, hI1]
    exact nextRotationIndex_four _ hidx
  · rw [hW4, hH3, hW2, hH1]
  · rw [hH4, hW3, hH2, hW1]
  · rw [hOX4, hOY3, hOX2, hOY1, neg_neg]
  · rw [hOY4, hOX3, hOY2, hOX1, neg_neg]
  · rw [hPX4, hPY3, hPX2, hPY1, neg_neg]
  · rw [hPY4, hPX3, hPY2, hPX1, neg_neg]
  · rw [hFX4, hFX3, hFX2, hFX1]
  · rw [hFY4, hFY3, hFY2, hFY1]

instance (co si : ℚ → ℚ) (st : CropperUIState) : Decidable (ResetForm co si st) := by
  unfold ResetForm; infer_instance

set_option maxRecDepth 200000 in
/-- Witness for the amended C7: the fresh 1100×1100 crop state is in reset
form, and four `rotateBase(+1)` steps return its index and box width. -/
theorem rotateBase_four_roundTrip_witness :
    ResetForm cosDeg0 sinDeg0 (cropInit 1100 1100) ∧
    (handleRotateBase cosDeg0 sinDeg0 1 (handleRotateBase cosDeg0 sinDeg0 1
      (handleRotateBase cosDeg0 sinDeg0 1 (handleRotateBase cosDeg0 sinDeg0 1
        (cropInit 1100 1100))))).baseRotationIndex = (cropInit 1100 1100).baseRotationIndex ∧
    (handleRotateBase cosDeg0 sinDeg0 1 (handleRotateBase cosDeg0 sinDeg0 1
      (handleRotateBase cosDeg0 sinDeg0 1 (handleRotateBase cosDeg0 sinDeg0 1
        (cropInit 1100 1100))))).boxWidth = (cropInit 1100 1100).boxWidth := by
  have hRF : ResetForm cosDeg0 sinDeg0 (cropInit 1100 1100) := by
    with_unfolding_all decide
  have h := rotateBase_four_roundTrip cosDeg0 sinDeg0 (cropInit 1100 1100) hRF
    (Or.inl (by with_unfolding_all decide))
  exact ⟨hRF, h.1, h.2.1⟩

set_option maxRecDepth 400000 in
/-- C7 (counterexample).  The claim as stated fails for a state whose box
is off-center: dragging the left edge 20px inward from the fresh
1100×1100 state leaves `boxOffsetX = 10`, and four `rotateBase(+1)` steps
end with `boxOffsetX = 0` — each step's `animateReset` recenters the box,
so the offset does not return to its pre-rotation value within `1e-6`. -/
theorem rotateBase_roundTrip_counterexample :
    (resizeOp cosDeg0 sinDeg0 "l" 20 0 (cropInit 1100 1100)).boxOffsetX = 10 ∧
    (handleRotateBase cosDeg0 sinDeg0 1 (handleRotateBase cosDeg0 sinDeg0 1
      (handleRotateBase cosDeg0 sinDeg0 1 (handleRotateBase cosDeg0 sinDeg0 1
        (resizeOp cosDeg0 sinDeg0 "l" 20 0 (cropInit 1100 1100)))))).boxOffsetX = 0 ∧
    |(handleRotateBase cosDeg0 sinDeg0 1 (handleRotateBase cosDeg0 sinDeg0 1
      (handleRotateBase cosDeg0 sinDeg0 1 (handleRotateBase cosDeg0 sinDeg0 1
        (resizeOp cosDeg0 sinDeg0 "l" 20 0 (cropInit 1100 1100)))))).boxOffsetX -
      (resizeOp cosDeg0 sinDeg0 "l" 20 0 (cropInit 1100 1100)).boxOffsetX| > 1 / 1000000 := by
  refine ⟨?_, ?_, ?_⟩ <;> with_unfolding_all decide

end Nostal
